import Mathlib

/-!
# Checkout session handler

A shallow embedding of `netlify/functions/create-checkout-session.js`.

The handler is one asynchronous function.  Its inputs are the Netlify event
(`httpMethod`, `body`, `headers`), the process environment
(`STRIPE_SECRET_KEY`, `URL`) and the Stripe client; its outputs are the HTTP
response, the lines written to the console and the calls made to Stripe.

JavaScript strings are modelled as Lean strings.  The value returned by
`JSON.parse` is an arbitrary JSON value, so it is modelled by the untyped
`JSVal`; the other inputs follow the types their platform declares for them:
the Netlify event has a string method, a string or `null` body and string
headers, the environment variables are strings or unset, and the Stripe
client settles a call with a session whose `url` is a string or `null`, or
rejects it with an `Error` object.
-/

namespace CheckoutSession

/-! ## JavaScript values -/

/-- A JavaScript value as `JSON.parse` can return it, plus `undefined` (the
value of a missing property).  A number is kept as the exact decimal
`(-1)^neg * mant * 10^exp10` its literal denotes; the handler never does
arithmetic on it. -/
inductive JSVal where
  | undefined : JSVal
  | null : JSVal
  | bool (b : Bool) : JSVal
  | num (neg : Bool) (mant : Nat) (exp10 : Int) : JSVal
  | str (s : String) : JSVal
  | arr (items : List JSVal) : JSVal
  | obj (fields : List (String × JSVal)) : JSVal

namespace JSVal

/-- ToBoolean: `undefined`, `null`, `false`, zero and the empty string are
falsy, everything else (every object and array included) is truthy. -/
def truthy : JSVal → Bool
  | undefined => false
  | null => false
  | bool b => b
  | num _ mant _ => mant != 0
  | str s => s != ""
  | arr _ => true
  | obj _ => true

/-- The `typeof` operator. -/
def typeof : JSVal → String
  | undefined => "undefined"
  | null => "object"
  | bool _ => "boolean"
  | num _ _ _ => "number"
  | str _ => "string"
  | arr _ => "object"
  | obj _ => "object"

end JSVal

/-- Own property of an object built by `JSON.parse`: when a key occurs more
than once in the text, the last occurrence wins. -/
def lookupLast (key : String) : List (String × JSVal) → Option JSVal
  | [] => none
  | (k, v) :: rest =>
    match lookupLast key rest with
    | some w => some w
    | none => if k = key then some v else none

/-- Whether the characters `pre` open the characters `s`. -/
def startsWithChars : List Char → List Char → Bool
  | _, [] => true
  | [], _ :: _ => false
  | c :: s, p :: pre => c == p && startsWithChars s pre

/-- The method `String.prototype.startsWith`. -/
def startsWith (s pre : String) : Bool :=
  startsWithChars s.data pre.data

/-- An `Error` object as it reaches a `catch` clause: its `name` and its
`message` (`none` when the object carries no message). -/
structure JSError where
  name : String
  message : Option String
deriving DecidableEq, Repr

/-! ## JSON.parse -/

namespace JSON

/-- JSON white space: tab, line feed, carriage return, space. -/
def isWs (c : Char) : Bool :=
  c == ' ' || c == '\t' || c == '\n' || c == '\r'

/-- Drop leading white space. -/
def skipWs : List Char → List Char
  | [] => []
  | c :: cs => if isWs c then skipWs cs else c :: cs

/-- Value of a hexadecimal digit. -/
def hexVal (c : Char) : Option Nat :=
  if '0' ≤ c ∧ c ≤ '9' then some (c.toNat - '0'.toNat)
  else if 'a' ≤ c ∧ c ≤ 'f' then some (c.toNat - 'a'.toNat + 10)
  else if 'A' ≤ c ∧ c ≤ 'F' then some (c.toNat - 'A'.toNat + 10)
  else none

/-- Value of four hexadecimal digits. -/
def hex4 (a b c d : Char) : Option Nat :=
  match hexVal a, hexVal b, hexVal c, hexVal d with
  | some x, some y, some z, some w => some (((x * 16 + y) * 16 + z) * 16 + w)
  | _, _, _, _ => none

/-- The character a one-letter escape stands for. -/
def unescape (c : Char) : Option Char :=
  if c = '"' then some '"'
  else if c = '\\' then some '\\'
  else if c = '/' then some '/'
  else if c = 'b' then some (Char.ofNat 8)
  else if c = 'f' then some (Char.ofNat 12)
  else if c = 'n' then some '\n'
  else if c = 'r' then some '\r'
  else if c = 't' then some '\t'
  else none

/-- Whether `n` is a UTF-16 high surrogate. -/
def isHigh (n : Nat) : Bool := 0xD800 ≤ n && n ≤ 0xDBFF

/-- Whether `n` is a UTF-16 low surrogate. -/
def isLow (n : Nat) : Bool := 0xDC00 ≤ n && n ≤ 0xDFFF

/-- The character of a `\u` escape whose code unit is `n`, and the text
left after it.  A high surrogate followed by the escape of a low surrogate is
the code point of the pair.  A surrogate without its partner has no Lean
character; it is read as U+FFFD. -/
def unicodeEscape (n : Nat) (rest : List Char) : Char × List Char :=
  if isHigh n then
    match rest with
    | '\\' :: 'u' :: a :: b :: c :: d :: rest2 =>
      match hex4 a b c d with
      | some m =>
        if isLow m then (Char.ofNat (0x10000 + (n - 0xD800) * 0x400 + (m - 0xDC00)), rest2)
        else (Char.ofNat 0xFFFD, rest)
      | none => (Char.ofNat 0xFFFD, rest)
    | _ => (Char.ofNat 0xFFFD, rest)
  else if isLow n then (Char.ofNat 0xFFFD, rest)
  else (Char.ofNat n, rest)

/-- Read a string literal whose opening quote has been consumed: the
characters it denotes and the text after the closing quote.  `fuel` bounds the
number of characters read. -/
def parseChars : Nat → List Char → Option (List Char × List Char)
  | 0, _ => none
  | _ + 1, [] => none
  | fuel + 1, c :: cs =>
    if c = '"' then some ([], cs)
    else if c = '\\' then
      match cs with
      | 'u' :: a :: b :: x :: d :: rest =>
        match hex4 a b x d with
        | some n =>
          match parseChars fuel (unicodeEscape n rest).2 with
          | some (s, r) => some ((unicodeEscape n rest).1 :: s, r)
          | none => none
        | none => none
      | e :: rest =>
        match unescape e with
        | some ch =>
          match parseChars fuel rest with
          | some (s, r) => some (ch :: s, r)
          | none => none
        | none => none
      | [] => none
    else if c.toNat < 0x20 then none
    else
      match parseChars fuel cs with
      | some (s, r) => some (c :: s, r)
      | none => none

/-- Read a run of decimal digits: their value continued from `acc`, how many
were read, and the text after them. -/
def digits : List Char → Nat → Nat → Nat × Nat × List Char
  | [], acc, n => (acc, n, [])
  | c :: cs, acc, n =>
    if c.isDigit then digits cs (acc * 10 + (c.toNat - '0'.toNat)) (n + 1)
    else (acc, n, c :: cs)

/-- The optional exponent part `e`, `e+` or `e-` followed by digits. -/
def parseExp (cs : List Char) : Option (Int × List Char) :=
  match cs with
  | e :: rest =>
    if e = 'e' ∨ e = 'E' then
      match rest with
      | s :: rest2 =>
        if s = '+' then
          match digits rest2 0 0 with
          | (v, n, r) => if n = 0 then none else some ((v : Int), r)
        else if s = '-' then
          match digits rest2 0 0 with
          | (v, n, r) => if n = 0 then none else some (-(v : Int), r)
        else
          match digits rest 0 0 with
          | (v, n, r) => if n = 0 then none else some ((v : Int), r)
      | [] => none
    else some (0, cs)
  | [] => some (0, cs)

/-- The optional fraction part: mantissa continued from `intPart`, number of
fraction digits, text after. -/
def parseFrac (intPart : Nat) (cs : List Char) : Option (Nat × Nat × List Char) :=
  match cs with
  | '.' :: rest =>
    match digits rest intPart 0 with
    | (v, n, r) => if n = 0 then none else some (v, n, r)
  | _ => some (intPart, 0, cs)

/-- Read an unsigned number literal: no leading zero before another digit, an
optional fraction, an optional exponent. -/
def parseUnsigned (neg : Bool) (cs : List Char) : Option (JSVal × List Char) :=
  match cs with
  | [] => none
  | c :: rest =>
    if c.isDigit then
      let intPart : Nat × Nat × List Char :=
        if c = '0' then (0, 1, rest) else digits cs 0 0
      match parseFrac intPart.1 intPart.2.2 with
      | none => none
      | some (mant, fracLen, r) =>
        match parseExp r with
        | none => none
        | some (e, r2) => some (JSVal.num neg mant (e - fracLen), r2)
    else none

/-- Read a number literal with its optional minus sign. -/
def parseNumber (cs : List Char) : Option (JSVal × List Char) :=
  match cs with
  | '-' :: rest => parseUnsigned true rest
  | _ => parseUnsigned false cs

mutual

/-- Read one JSON value after optional white space; returns the value and the
text after it.  `fuel` bounds the depth of the calls. -/
def parseValue : Nat → List Char → Option (JSVal × List Char)
  | 0, _ => none
  | fuel + 1, cs =>
    match skipWs cs with
    | [] => none
    | c :: rest =>
      if c = '\x7b' then
        match skipWs rest with
        | [] => none
        | d :: rest2 =>
          if d = '\x7d' then some (JSVal.obj [], rest2)
          else
            match parseMembers fuel (d :: rest2) with
            | some (fields, r) => some (JSVal.obj fields, r)
            | none => none
      else if c = '[' then
        match skipWs rest with
        | [] => none
        | d :: rest2 =>
          if d = ']' then some (JSVal.arr [], rest2)
          else
            match parseElements fuel (d :: rest2) with
            | some (items, r) => some (JSVal.arr items, r)
            | none => none
      else if c = '"' then
        match parseChars (rest.length + 1) rest with
        | some (s, r) => some (JSVal.str (String.mk s), r)
        | none => none
      else if c = 't' then
        match rest with
        | 'r' :: 'u' :: 'e' :: r => some (JSVal.bool true, r)
        | _ => none
      else if c = 'f' then
        match rest with
        | 'a' :: 'l' :: 's' :: 'e' :: r => some (JSVal.bool false, r)
        | _ => none
      else if c = 'n' then
        match rest with
        | 'u' :: 'l' :: 'l' :: r => some (JSVal.null, r)
        | _ => none
      else parseNumber (c :: rest)

/-- Read the elements of a non-empty array up to and including `]`. -/
def parseElements : Nat → List Char → Option (List JSVal × List Char)
  | 0, _ => none
  | fuel + 1, cs =>
    match parseValue fuel cs with
    | none => none
    | some (v, rest) =>
      match skipWs rest with
      | [] => none
      | c :: rest2 =>
        if c = ',' then
          match parseElements fuel rest2 with
          | some (vs, r) => some (v :: vs, r)
          | none => none
        else if c = ']' then some ([v], rest2)
        else none

/-- Read the members of a non-empty object up to and including the closing
brace.  The text starts at the first member's key. -/
def parseMembers : Nat → List Char → Option (List (String × JSVal) × List Char)
  | 0, _ => none
  | fuel + 1, cs =>
    match skipWs cs with
    | [] => none
    | q :: rest =>
      if q = '"' then
        match parseChars (rest.length + 1) rest with
        | none => none
        | some (k, afterKey) =>
          match skipWs afterKey with
          | [] => none
          | colon :: afterColon =>
            if colon = ':' then
              match parseValue fuel afterColon with
              | none => none
              | some (v, rest2) =>
                match skipWs rest2 with
                | [] => none
                | c :: rest3 =>
                  if c = ',' then
                    match parseMembers fuel rest3 with
                    | some (fs, r) => some ((String.mk k, v) :: fs, r)
                    | none => none
                  else if c = '\x7d' then some ([(String.mk k, v)], rest3)
                  else none
            else none
      else none

end

/-- The function `JSON.parse` on a string: `none` stands for the `SyntaxError`
it throws.  The whole text must be one value between optional white space.
Every nested call consumes a character, so twice the length of the text is
fuel enough. -/
def parse (text : String) : Option JSVal :=
  match parseValue (2 * text.data.length + 2) text.data with
  | some (v, rest) =>
    match skipWs rest with
    | [] => some v
    | _ :: _ => none
  | none => none

/-! ## JSON.stringify -/

/-- Hexadecimal digit of `n < 16`, in lower case. -/
def hexDigit (n : Nat) : Char :=
  if n < 10 then Char.ofNat (48 + n) else Char.ofNat (87 + n)

/-- QuoteJSONString on one character: `"` and `\` get a backslash, the
control characters below U+0020 their short escape or `\u00xx`, every other
character stands for itself. -/
def escapeChar (c : Char) : List Char :=
  if c = '"' then ['\\', '"']
  else if c = '\\' then ['\\', '\\']
  else if c = Char.ofNat 8 then ['\\', 'b']
  else if c = Char.ofNat 12 then ['\\', 'f']
  else if c = '\n' then ['\\', 'n']
  else if c = '\r' then ['\\', 'r']
  else if c = '\t' then ['\\', 't']
  else if c.toNat < 0x20 then
    ['\\', 'u', '0', '0', hexDigit (c.toNat / 16), hexDigit (c.toNat % 16)]
  else [c]

/-- The escaped characters of a string, without the surrounding quotes. -/
def escapeChars : List Char → List Char
  | [] => []
  | c :: cs => escapeChar c ++ escapeChars cs

/-- QuoteJSONString: the JSON string literal of `s`. -/
def quote (s : String) : String :=
  String.mk ('"' :: (escapeChars s.data ++ ['"']))

/-- The object literals the handler passes to `JSON.stringify`: `{ error: m }`
with a string `m`, and `{ url: session.url }`, where `session.url` is a string
or `null` (`none`). -/
inductive Payload where
  | error (message : String) : Payload
  | url (url : Option String) : Payload

/-- The function `JSON.stringify` on these object literals. -/
def stringify : Payload → String
  | Payload.error m => "\x7b\"error\":" ++ quote m ++ "\x7d"
  | Payload.url (some u) => "\x7b\"url\":" ++ quote u ++ "\x7d"
  | Payload.url none => "\x7b\"url\":null\x7d"

end JSON

/-! ## The platform: event, environment, Stripe client -/

/-- The Netlify event.  `body` is `none` when the request has no body
(`null`); `headers` is `none` when the event carries no headers object, and a
header missing from the object reads as `undefined`. -/
structure Event where
  httpMethod : String
  body : Option String
  headers : Option (List (String × String))

/-- The two variables the handler reads from `process.env`; `none` is an
unset variable (`undefined`). -/
structure ProcessEnv where
  STRIPE_SECRET_KEY : Option String
  URL : Option String

/-- One entry of `line_items`. -/
structure LineItem where
  price : JSVal
  quantity : Nat

/-- The object `{ enabled: ... }`. -/
structure PhoneNumberCollection where
  enabled : Bool

/-- The argument of `stripe.checkout.sessions.create`. -/
structure SessionParams where
  mode : String
  line_items : List LineItem
  success_url : String
  cancel_url : String
  billing_address_collection : String
  phone_number_collection : PhoneNumberCollection

/-- The session object Stripe resolves with.  Stripe declares
`url: string | null`; `none` is `null`. -/
structure Session where
  url : Option String

/-- How the awaited call settles: with a session, or with an error thrown
into the handler. -/
inductive CreateResult where
  | resolved (session : Session) : CreateResult
  | rejected (err : JSError) : CreateResult

/-- The client `new Stripe(secretKey)` returns, seen through the one operation
the handler uses, `checkout.sessions.create`. -/
abbrev StripeClient := SessionParams → CreateResult

/-- The constructor `Stripe`: it keeps the key and returns the client. -/
abbrev Stripe := String → StripeClient

/-- A recorded call of `checkout.sessions.create`. -/
structure StripeCall where
  secretKey : String
  params : SessionParams

/-- The object the handler returns. -/
structure Response where
  statusCode : Nat
  headers : List (String × String)
  body : String
deriving DecidableEq, Repr

/-- A console line: `console.log(label, value)` or
`console.error(label, err)`. -/
inductive LogLine where
  | log (label : String) (value : JSVal) : LogLine
  | error (label : String) (err : JSError) : LogLine

/-- Whether the line was written by `console.error`. -/
def LogLine.isError : LogLine → Bool
  | LogLine.log _ _ => false
  | LogLine.error _ _ => true

/-! ## Operators on values that are a string or `undefined` -/

/-- A string-or-undefined value seen through ToBoolean: `some s` when it is
truthy, that is defined and not empty. -/
def truthy? : Option String → Option String
  | some s => if s = "" then none else some s
  | none => none

/-- The expression `a || b` when both operands are a string or `undefined`. -/
def orElse (a b : Option String) : Option String :=
  match truthy? a with
  | some s => some s
  | none => b

/-- The expression `a || d` with a string literal `d` on the right. -/
def orDefault (a : Option String) (d : String) : String :=
  match truthy? a with
  | some s => s
  | none => d

/-- A string-or-undefined value inside a template literal. -/
def interpolate : Option String → String
  | some s => s
  | none => "undefined"

/-! ## The handler -/

/-- The constant `headers`. -/
def headers : List (String × String) := [("Content-Type", "application/json")]

/-- The statement `const { priceId } = body;`.  Destructuring `null` or
`undefined` throws a `TypeError` (the message is the one V8 gives); an object
gives its own property, any other value has no such property. -/
def destructurePriceId (body : JSVal) : Except JSError JSVal :=
  match body with
  | JSVal.null =>
    Except.error ⟨"TypeError", some "Cannot destructure property 'priceId' of 'body' as it is null."⟩
  | JSVal.undefined =>
    Except.error ⟨"TypeError", some "Cannot destructure property 'priceId' of 'body' as it is undefined."⟩
  | JSVal.obj fields => Except.ok ((lookupLast "priceId" fields).getD JSVal.undefined)
  | _ => Except.ok JSVal.undefined

/-- The test
`!priceId || typeof priceId !== "string" || !priceId.startsWith("price_")`. -/
def invalidPriceId (priceId : JSVal) : Bool :=
  !priceId.truthy || priceId.typeof != "string" ||
    !(match priceId with
      | JSVal.str s => startsWith s "price_"
      | _ => false)

/-- The expression that initialises `siteUrl`:
`process.env.URL || (event.headers && (event.headers.origin || ...))`. -/
def siteUrl (env : ProcessEnv) (event : Event) : Option String :=
  orElse env.URL
    (match event.headers with
     | none => none
     | some hs => orElse (hs.lookup "origin") (some ("https://" ++ interpolate (hs.lookup "host"))))

/-- The argument built for `stripe.checkout.sessions.create`. -/
def sessionParams (priceId : JSVal) (siteUrl : String) : SessionParams :=
  { mode := "payment"
    line_items := [{ price := priceId, quantity := 1 }]
    success_url := siteUrl ++ "/success.html"
    cancel_url := siteUrl ++ "/cancel.html"
    billing_address_collection := "required"
    phone_number_collection := { enabled := true } }

/-- What the `try` block does: it returns a response or throws, after writing
`logs` and making `calls`. -/
structure Attempt where
  result : Except JSError Response
  logs : List LogLine
  calls : List StripeCall

/-- The body of the `try` block. -/
def tryBlock (Stripe : Stripe) (env : ProcessEnv) (event : Event) : Attempt :=
  if event.httpMethod ≠ "POST" then
    { result := Except.ok
        { statusCode := 405, headers := headers,
          body := JSON.stringify (JSON.Payload.error "Method Not Allowed") }
      logs := [], calls := [] }
  else
    match JSON.parse (orDefault event.body "\x7b\x7d") with
    | none =>
      { result := Except.ok
          { statusCode := 400, headers := headers,
            body := JSON.stringify (JSON.Payload.error "Invalid JSON body") }
        logs := [], calls := [] }
    | some body =>
      match destructurePriceId body with
      | Except.error err => { result := Except.error err, logs := [], calls := [] }
      | Except.ok priceId =>
        if invalidPriceId priceId then
          { result := Except.ok
              { statusCode := 400, headers := headers,
                body := JSON.stringify
                  (JSON.Payload.error "Missing or invalid priceId (must start with price_)") }
            logs := [LogLine.log "Received priceId:" priceId], calls := [] }
        else
          match truthy? env.STRIPE_SECRET_KEY with
          | none =>
            { result := Except.ok
                { statusCode := 500, headers := headers,
                  body := JSON.stringify
                    (JSON.Payload.error "Missing STRIPE_SECRET_KEY in environment variables") }
              logs := [LogLine.log "Received priceId:" priceId], calls := [] }
          | some secretKey =>
            let stripe : StripeClient := Stripe secretKey
            match truthy? (siteUrl env event) with
            | none =>
              { result := Except.ok
                  { statusCode := 500, headers := headers,
                    body := JSON.stringify
                      (JSON.Payload.error "Could not determine site URL for redirect") }
                logs := [LogLine.log "Received priceId:" priceId], calls := [] }
            | some site =>
              match stripe (sessionParams priceId site) with
              | CreateResult.rejected err =>
                { result := Except.error err
                  logs := [LogLine.log "Received priceId:" priceId]
                  calls := [{ secretKey := secretKey, params := sessionParams priceId site }] }
              | CreateResult.resolved session =>
                { result := Except.ok
                    { statusCode := 200, headers := headers,
                      body := JSON.stringify (JSON.Payload.url session.url) }
                  logs := [LogLine.log "Received priceId:" priceId]
                  calls := [{ secretKey := secretKey, params := sessionParams priceId site }] }

/-- One invocation of the handler: the response it resolves with, the console
lines in order, and the calls made to Stripe. -/
structure Run where
  response : Response
  logs : List LogLine
  calls : List StripeCall

/-- The function `exports.handler`: the `try` block, and the `catch` clause
that logs the error and answers 500 with `err.message || "Server error"`. -/
def handler (Stripe : Stripe) (env : ProcessEnv) (event : Event) : Run :=
  let attempt := tryBlock Stripe env event
  match attempt.result with
  | Except.ok response => { response := response, logs := attempt.logs, calls := attempt.calls }
  | Except.error err =>
    { response :=
        { statusCode := 500, headers := headers,
          body := JSON.stringify (JSON.Payload.error (orDefault err.message "Server error")) }
      logs := attempt.logs ++ [LogLine.error "Stripe error:" err]
      calls := attempt.calls }

/-! ## Vocabulary of the statements and sample inputs -/

/-- The event's body is JSON text for an object whose `priceId` is the string
`priceId`, and that string starts with `price_`. -/
def ValidPriceId (event : Event) (priceId : String) : Prop :=
  ∃ b fields, event.body = some b ∧ JSON.parse b = some (JSVal.obj fields) ∧
    lookupLast "priceId" fields = some (JSVal.str priceId) ∧
    startsWith priceId "price_" = true

/-- Stripe was called exactly once in the run, with the success and cancel
URLs built on the base `site`. -/
def CalledWithBase (run : Run) (site : String) : Prop :=
  ∃ call, run.calls = [call] ∧
    call.params.success_url = site ++ "/success.html" ∧
    call.params.cancel_url = site ++ "/cancel.html"

/-- A client that resolves every call with a session carrying a URL. -/
def resolvingStripe : Stripe := fun _ _ =>
  CreateResult.resolved { url := some "https://checkout.stripe.com/c/pay/cs_test_a1" }

/-- A client that resolves every call with a session whose `url` is `null`. -/
def urllessStripe : Stripe := fun _ _ => CreateResult.resolved { url := none }

/-- A client that rejects every call with Stripe's error for an unknown
price. -/
def rejectingStripe : Stripe := fun _ _ =>
  CreateResult.rejected
    { name := "StripeInvalidRequestError", message := some "No such price: 'price_123'" }

/-- An environment with the secret key set and `URL` unset. -/
def keyOnlyEnv : ProcessEnv := { STRIPE_SECRET_KEY := some "sk_test_123", URL := none }

/-- An environment with the secret key and `URL` set. -/
def shopEnv : ProcessEnv :=
  { STRIPE_SECRET_KEY := some "sk_test_123", URL := some "https://shop.example" }

/-- A POST of `{"priceId":"price_123"}` with the given headers object. -/
def checkoutEvent (headers : Option (List (String × String))) : Event :=
  { httpMethod := "POST", body := some "\x7b\"priceId\":\"price_123\"\x7d", headers := headers }

/-- A POST with the given body text and a `host` header. -/
def postEvent (body : String) : Event :=
  { httpMethod := "POST", body := some body, headers := some [("host", "shop.example")] }

/-! ## JSON.stringify followed by JSON.parse -/

namespace JSON

theorem hex4_hexDigit : ∀ k : Fin 32,
    hex4 '0' '0' (hexDigit (k.val / 16)) (hexDigit (k.val % 16)) = some k.val := by
  decide

/-- Reading back the escape of one character costs one unit of fuel and
yields the character. -/
theorem parseChars_escapeChar (c : Char) (fuel : Nat) (tail : List Char) :
    parseChars (fuel + 1) (escapeChar c ++ tail) =
      match parseChars fuel tail with
      | some (s, r) => some (c :: s, r)
      | none => none := by
  unfold escapeChar
  split_ifs with h1 h2 h3 h4 h5 h6 h7 h8
  · subst h1; simp [parseChars, unescape]
  · subst h2; simp [parseChars, unescape]
  · subst h3; simp [parseChars, unescape]
  · subst h4; simp [parseChars, unescape]
  · subst h5; simp [parseChars, unescape]
  · subst h6; simp [parseChars, unescape]
  · subst h7; simp [parseChars, unescape]
  · have hx := hex4_hexDigit ⟨c.toNat, h8⟩
    simp only at hx
    have hu : unicodeEscape c.toNat tail = (c, tail) := by
      have hh : isHigh c.toNat = false := by simp [isHigh]; omega
      have hl : isLow c.toNat = false := by simp [isLow]; omega
      simp [unicodeEscape, hh, hl, Char.ofNat_toNat]
    simp [parseChars, hx, hu]
  · simp [parseChars, h1, h2, h8]

/-- Reading back an escaped string up to its closing quote. -/
theorem parseChars_escapeChars (s : List Char) : ∀ (fuel : Nat) (rest : List Char),
    s.length < fuel →
    parseChars fuel (escapeChars s ++ '"' :: rest) = some (s, rest) := by
  induction s with
  | nil =>
    intro fuel rest h
    obtain ⟨k, rfl⟩ : ∃ k, fuel = k + 1 := ⟨fuel - 1, by simp at h; omega⟩
    simp [escapeChars, parseChars]
  | cons c cs ih =>
    intro fuel rest h
    obtain ⟨k, rfl⟩ : ∃ k, fuel = k + 1 := ⟨fuel - 1, by omega⟩
    have hk : cs.length < k := by simp at h; omega
    simp only [escapeChars, List.append_assoc]
    rw [parseChars_escapeChar, ih k rest hk]

theorem length_le_escapeChars (s : List Char) : s.length ≤ (escapeChars s).length := by
  induction s with
  | nil => simp [escapeChars]
  | cons c cs ih =>
    have : 1 ≤ (escapeChar c).length := by
      unfold escapeChar
      split_ifs <;> simp
    simp [escapeChars]; omega

theorem parseValue_error (fuel : Nat) (hfuel : 3 ≤ fuel) (s : List Char) :
    parseValue fuel
      ('\x7b' :: '"' :: 'e' :: 'r' :: 'r' :: 'o' :: 'r' :: '"' :: ':' :: '"' ::
        (escapeChars s ++ ['"', '\x7d'])) =
      some (JSVal.obj [("error", JSVal.str (String.mk s))], []) := by
  obtain ⟨k, rfl⟩ : ∃ k, fuel = k + 3 := ⟨fuel - 3, by omega⟩
  have h := parseChars_escapeChars s ((escapeChars s).length + 2 + 1) ['\x7d']
    (by have := length_le_escapeChars s; omega)
  simp [parseValue, parseMembers, skipWs, isWs, parseChars, h]

theorem parseValue_url (fuel : Nat) (hfuel : 3 ≤ fuel) (s : List Char) :
    parseValue fuel
      ('\x7b' :: '"' :: 'u' :: 'r' :: 'l' :: '"' :: ':' :: '"' ::
        (escapeChars s ++ ['"', '\x7d'])) =
      some (JSVal.obj [("url", JSVal.str (String.mk s))], []) := by
  obtain ⟨k, rfl⟩ : ∃ k, fuel = k + 3 := ⟨fuel - 3, by omega⟩
  have h := parseChars_escapeChars s ((escapeChars s).length + 2 + 1) ['\x7d']
    (by have := length_le_escapeChars s; omega)
  simp [parseValue, parseMembers, skipWs, isWs, parseChars, h]

/-- The text `JSON.stringify({ error: m })` parses back to the object with the
one property `error`, of value `m`. -/
theorem parse_stringify_error (m : String) :
    parse (stringify (Payload.error m)) = some (JSVal.obj [("error", JSVal.str m)]) := by
  have hd : (stringify (Payload.error m)).data =
      '\x7b' :: '"' :: 'e' :: 'r' :: 'r' :: 'o' :: 'r' :: '"' :: ':' :: '"' ::
        (escapeChars m.data ++ ['"', '\x7d']) := by
    simp [stringify, quote, String.data_append]
  unfold parse
  rw [hd, parseValue_error _ (by simp only [List.length_cons]; omega) m.data]
  simp [skipWs]

/-- The text `JSON.stringify({ url: u })` parses back to the object with the
one property `url`, of value `u`. -/
theorem parse_stringify_url (u : String) :
    parse (stringify (Payload.url (some u))) = some (JSVal.obj [("url", JSVal.str u)]) := by
  have hd : (stringify (Payload.url (some u))).data =
      '\x7b' :: '"' :: 'u' :: 'r' :: 'l' :: '"' :: ':' :: '"' ::
        (escapeChars u.data ++ ['"', '\x7d']) := by
    simp [stringify, quote, String.data_append]
  unfold parse
  rw [hd, parseValue_url _ (by simp only [List.length_cons]; omega) u.data]
  simp [skipWs]

theorem parse_stringify_url_null :
    parse (stringify (Payload.url none)) = some (JSVal.obj [("url", JSVal.null)]) := rfl

theorem parse_empty : parse "" = none := rfl

/-! ### What `parse` returns -/

theorem parseUnsigned_num (neg : Bool) (cs : List Char) (v : JSVal) (r : List Char)
    (h : parseUnsigned neg cs = some (v, r)) : ∃ m e, v = JSVal.num neg m e := by
  unfold parseUnsigned at h
  cases cs with
  | nil => exact Option.noConfusion h
  | cons c rest =>
    simp only at h
    split at h
    · generalize (if c = '0' then (0, 1, rest) else digits (c :: rest) 0 0) = ip at h
      cases hf : parseFrac ip.1 ip.2.2 with
      | none => simp [hf] at h
      | some t =>
        obtain ⟨mant, fl, r1⟩ := t
        cases he : parseExp r1 with
        | none => simp [hf, he] at h
        | some t2 =>
          obtain ⟨e, r2⟩ := t2
          simp [hf, he] at h
          exact ⟨_, _, h.1.symm⟩
    · exact Option.noConfusion h

theorem parseNumber_num (cs : List Char) (v : JSVal) (r : List Char)
    (h : parseNumber cs = some (v, r)) : ∃ neg m e, v = JSVal.num neg m e := by
  unfold parseNumber at h
  split at h
  · exact ⟨_, parseUnsigned_num _ _ _ _ h⟩
  · exact ⟨_, parseUnsigned_num _ _ _ _ h⟩

theorem parseValue_ne_undefined (fuel : Nat) (cs : List Char) (v : JSVal) (r : List Char)
    (h : parseValue fuel cs = some (v, r)) : v ≠ JSVal.undefined := by
  cases fuel with
  | zero => simp [parseValue] at h
  | succ k =>
    rintro rfl
    unfold parseValue at h
    repeat' split at h
    all_goals first
      | exact Option.noConfusion h
      | (simp only [Option.some.injEq, Prod.mk.injEq] at h; exact JSVal.noConfusion h.1)
      | (obtain ⟨_, _, _, hn⟩ := parseNumber_num _ _ _ h; exact JSVal.noConfusion hn)

theorem parse_ne_undefined (text : String) : parse text ≠ some JSVal.undefined := by
  intro h
  unfold parse at h
  split at h
  · rename_i v rest hv
    split at h
    · simp only [Option.some.injEq] at h
      subst h
      exact parseValue_ne_undefined _ _ _ _ hv rfl
    · exact Option.noConfusion h
  · exact Option.noConfusion h

/-! ### The fuel of the parser is enough -/

theorem skipWs_length_le (cs : List Char) : (skipWs cs).length ≤ cs.length := by
  induction cs with
  | nil => simp [skipWs]
  | cons c cs ih =>
    unfold skipWs
    split
    · simp; omega
    · simp

theorem digits_length_le (cs : List Char) : ∀ acc n, (digits cs acc n).2.2.length ≤ cs.length := by
  induction cs with
  | nil => intro acc n; simp [digits]
  | cons c cs ih =>
    intro acc n
    unfold digits
    split
    · exact Nat.le_trans (ih (acc * 10 + (c.toNat - '0'.toNat)) (n + 1)) (Nat.le_succ _)
    · exact Nat.le_refl _

theorem parseExp_length_le (cs : List Char) (e : Int) (r : List Char)
    (h : parseExp cs = some (e, r)) : r.length ≤ cs.length := by
  unfold parseExp at h
  split at h
  · rename_i c rest
    split at h
    · split at h
      · rename_i s rest2
        split at h
        · have := digits_length_le rest2 0 0
          generalize digits rest2 0 0 = t at h this
          obtain ⟨v, n, r'⟩ := t
          simp only at h this
          split at h
          · exact Option.noConfusion h
          · simp only [Option.some.injEq, Prod.mk.injEq] at h
            obtain ⟨_, rfl⟩ := h
            simp; omega
        · split at h
          · have := digits_length_le rest2 0 0
            generalize digits rest2 0 0 = t at h this
            obtain ⟨v, n, r'⟩ := t
            simp only at h this
            split at h
            · exact Option.noConfusion h
            · simp only [Option.some.injEq, Prod.mk.injEq] at h
              obtain ⟨_, rfl⟩ := h
              simp; omega
          · have := digits_length_le (s :: rest2) 0 0
            generalize digits (s :: rest2) 0 0 = t at h this
            obtain ⟨v, n, r'⟩ := t
            simp only at h this
            split at h
            · exact Option.noConfusion h
            · simp only [Option.some.injEq, Prod.mk.injEq] at h
              obtain ⟨_, rfl⟩ := h
              simp at this ⊢; omega
      · exact Option.noConfusion h
    · simp only [Option.some.injEq, Prod.mk.injEq] at h
      obtain ⟨_, rfl⟩ := h
      simp
  · simp only [Option.some.injEq, Prod.mk.injEq] at h
    obtain ⟨_, rfl⟩ := h
    simp

theorem parseFrac_length_le (ip : Nat) (cs : List Char) (m n : Nat) (r : List Char)
    (h : parseFrac ip cs = some (m, n, r)) : r.length ≤ cs.length := by
  unfold parseFrac at h
  split at h
  · rename_i rest
    have := digits_length_le rest ip 0
    generalize digits rest ip 0 = t at h this
    obtain ⟨v, k, r'⟩ := t
    simp only at h this
    split at h
    · exact Option.noConfusion h
    · simp only [Option.some.injEq, Prod.mk.injEq] at h
      obtain ⟨_, _, rfl⟩ := h
      simp; omega
  · simp only [Option.some.injEq, Prod.mk.injEq] at h
    obtain ⟨_, _, rfl⟩ := h
    simp

theorem parseUnsigned_length_lt (neg : Bool) (cs : List Char) (v : JSVal) (r : List Char)
    (h : parseUnsigned neg cs = some (v, r)) : r.length < cs.length := by
  unfold parseUnsigned at h
  cases cs with
  | nil => exact Option.noConfusion h
  | cons c rest =>
    simp only at h
    split at h
    · rename_i hdig
      have hip : (if c = '0' then ((0 : Nat), (1 : Nat), rest) else digits (c :: rest) 0 0).2.2.length
          ≤ rest.length := by
        split
        · simp
        · have := digits_length_le rest (0 * 10 + (c.toNat - '0'.toNat)) (0 + 1)
          simp only [digits, hdig, if_true]
          exact this
      generalize (if c = '0' then ((0 : Nat), (1 : Nat), rest) else digits (c :: rest) 0 0) = ip at h hip
      cases hf : parseFrac ip.1 ip.2.2 with
      | none => simp [hf] at h
      | some t =>
        obtain ⟨mant, fl, r1⟩ := t
        have h1 := parseFrac_length_le _ _ _ _ _ hf
        cases he : parseExp r1 with
        | none => simp [hf, he] at h
        | some t2 =>
          obtain ⟨e, r2⟩ := t2
          have h2 := parseExp_length_le _ _ _ he
          simp [hf, he] at h
          obtain ⟨_, rfl⟩ := h
          simp; omega
    · exact Option.noConfusion h

theorem parseNumber_length_lt (cs : List Char) (v : JSVal) (r : List Char)
    (h : parseNumber cs = some (v, r)) : r.length < cs.length := by
  unfold parseNumber at h
  split at h
  · have := parseUnsigned_length_lt _ _ _ _ h
    simp; omega
  · exact parseUnsigned_length_lt _ _ _ _ h

theorem unicodeEscape_length_le (n : Nat) (rest : List Char) :
    (unicodeEscape n rest).2.length ≤ rest.length := by
  unfold unicodeEscape
  split
  · split
    · split
      · split
        · simp; omega
        · simp
      · simp
    · simp
  · split <;> simp

theorem parseChars_length_lt (fuel : Nat) : ∀ (cs s r : List Char),
    parseChars fuel cs = some (s, r) → r.length < cs.length := by
  induction fuel with
  | zero => intro cs s r h; simp [parseChars] at h
  | succ k ih =>
    intro cs s r h
    cases cs with
    | nil => simp [parseChars] at h
    | cons c cs =>
      unfold parseChars at h
      split at h
      · simp only [Option.some.injEq, Prod.mk.injEq] at h
        obtain ⟨_, rfl⟩ := h
        simp
      · split at h
        · split at h
          · rename_i a b x d rest
            split at h
            · rename_i n hn
              cases hp : parseChars k (unicodeEscape n rest).2 with
              | none => simp [hp] at h
              | some t =>
                obtain ⟨s', r'⟩ := t
                have h1 := ih _ _ _ hp
                have h2 := unicodeEscape_length_le n rest
                simp [hp] at h
                obtain ⟨_, rfl⟩ := h
                simp; omega
            · exact Option.noConfusion h
          · rename_i e rest _
            split at h
            · rename_i ch hch
              cases hp : parseChars k rest with
              | none => simp [hp] at h
              | some t =>
                obtain ⟨s', r'⟩ := t
                have h1 := ih _ _ _ hp
                simp [hp] at h
                obtain ⟨_, rfl⟩ := h
                simp; omega
            · exact Option.noConfusion h
          · exact Option.noConfusion h
        · split at h
          · exact Option.noConfusion h
          · cases hp : parseChars k cs with
            | none => simp [hp] at h
            | some t =>
              obtain ⟨s', r'⟩ := t
              have h1 := ih _ _ _ hp
              simp [hp] at h
              obtain ⟨_, rfl⟩ := h
              simp; omega

theorem parseValue_fuel_step (f : Nat)
    (hE : ∀ cs vs r, parseElements f cs = some (vs, r) → r.length < cs.length ∧
      ∀ g, 2 * (cs.length - r.length) ≤ g → parseElements g cs = some (vs, r))
    (hM : ∀ cs fs r, parseMembers f cs = some (fs, r) → r.length < cs.length ∧
      ∀ g, 2 * (cs.length - r.length) ≤ g → parseMembers g cs = some (fs, r)) :
    ∀ cs v r, parseValue (f + 1) cs = some (v, r) → r.length < cs.length ∧
      ∀ g, 2 * (cs.length - r.length) ≤ g → parseValue g cs = some (v, r) := by
  intro cs v r h
  have hws := skipWs_length_le cs
  simp only [parseValue] at h
  cases hsk : skipWs cs with
  | nil => simp [hsk] at h
  | cons c rest =>
    rw [hsk] at hws
    simp only [hsk, List.length_cons] at h hws
    by_cases h1 : c = '\x7b'
    · simp only [h1, if_true] at h
      have hws2 := skipWs_length_le rest
      cases hsk2 : skipWs rest with
      | nil => simp [hsk2] at h
      | cons d rest2 =>
        rw [hsk2] at hws2
        simp only [hsk2, List.length_cons] at h hws2
        by_cases hd : d = '\x7d'
        · simp only [hd, if_true, Option.some.injEq, Prod.mk.injEq] at h
          obtain ⟨rfl, rfl⟩ := h
          refine ⟨by omega, fun g hg => ?_⟩
          obtain ⟨g', rfl⟩ : ∃ g', g = g' + 1 := ⟨g - 1, by omega⟩
          simp [parseValue, hsk, h1, hsk2, hd]
        · simp only [hd, if_false] at h
          cases hm : parseMembers f (d :: rest2) with
          | none => simp [hm] at h
          | some t =>
            obtain ⟨fields, r'⟩ := t
            simp only [hm, Option.some.injEq, Prod.mk.injEq] at h
            obtain ⟨rfl, rfl⟩ := h
            obtain ⟨hl, hg⟩ := hM _ _ _ hm
            simp only [List.length_cons] at hl hg
            refine ⟨by omega, fun g hgb => ?_⟩
            obtain ⟨g', rfl⟩ : ∃ g', g = g' + 1 := ⟨g - 1, by omega⟩
            have hm' := hg g' (by omega)
            simp [parseValue, hsk, h1, hsk2, hd, hm']
    · simp only [h1, if_false] at h
      by_cases h2 : c = '['
      · simp only [h2, if_true] at h
        have hws2 := skipWs_length_le rest
        cases hsk2 : skipWs rest with
        | nil => simp [hsk2] at h
        | cons d rest2 =>
          rw [hsk2] at hws2
          simp only [hsk2, List.length_cons] at h hws2
          by_cases hd : d = ']'
          · simp only [hd, if_true, Option.some.injEq, Prod.mk.injEq] at h
            obtain ⟨rfl, rfl⟩ := h
            refine ⟨by omega, fun g hg => ?_⟩
            obtain ⟨g', rfl⟩ : ∃ g', g = g' + 1 := ⟨g - 1, by omega⟩
            simp [parseValue, hsk, h2, hsk2, hd]
          · simp only [hd, if_false] at h
            cases hm : parseElements f (d :: rest2) with
            | none => simp [hm] at h
            | some t =>
              obtain ⟨items, r'⟩ := t
              simp only [hm, Option.some.injEq, Prod.mk.injEq] at h
              obtain ⟨rfl, rfl⟩ := h
              obtain ⟨hl, hg⟩ := hE _ _ _ hm
              simp only [List.length_cons] at hl hg
              refine ⟨by omega, fun g hgb => ?_⟩
              obtain ⟨g', rfl⟩ : ∃ g', g = g' + 1 := ⟨g - 1, by omega⟩
              have hm' := hg g' (by omega)
              simp [parseValue, hsk, h2, hsk2, hd, hm']
      · simp only [h2, if_false] at h
        by_cases h3 : c = '"'
        · simp only [h3, if_true] at h
          cases hp : parseChars (rest.length + 1) rest with
          | none => simp [hp] at h
          | some t =>
            obtain ⟨str, r'⟩ := t
            have hl := parseChars_length_lt _ _ _ _ hp
            simp only [hp, Option.some.injEq, Prod.mk.injEq] at h
            obtain ⟨rfl, rfl⟩ := h
            refine ⟨by omega, fun g hgb => ?_⟩
            obtain ⟨g', rfl⟩ : ∃ g', g = g' + 1 := ⟨g - 1, by omega⟩
            simp [parseValue, hsk, h3, hp]
        · simp only [h3, if_false] at h
          by_cases h4 : c = 't'
          · simp only [h4, if_true] at h
            split at h
            · simp only [Option.some.injEq, Prod.mk.injEq] at h
              obtain ⟨rfl, rfl⟩ := h
              simp only [List.length_cons] at hws
              refine ⟨by omega, fun g hgb => ?_⟩
              obtain ⟨g', rfl⟩ : ∃ g', g = g' + 1 := ⟨g - 1, by omega⟩
              simp [parseValue, hsk, h4]
            · exact Option.noConfusion h
          · simp only [h4, if_false] at h
            by_cases h5 : c = 'f'
            · simp only [h5, if_true] at h
              split at h
              · simp only [Option.some.injEq, Prod.mk.injEq] at h
                obtain ⟨rfl, rfl⟩ := h
                simp only [List.length_cons] at hws
                refine ⟨by omega, fun g hgb => ?_⟩
                obtain ⟨g', rfl⟩ : ∃ g', g = g' + 1 := ⟨g - 1, by omega⟩
                simp [parseValue, hsk, h5]
              · exact Option.noConfusion h
            · simp only [h5, if_false] at h
              by_cases h6 : c = 'n'
              · simp only [h6, if_true] at h
                split at h
                · simp only [Option.some.injEq, Prod.mk.injEq] at h
                  obtain ⟨rfl, rfl⟩ := h
                  simp only [List.length_cons] at hws
                  refine ⟨by omega, fun g hgb => ?_⟩
                  obtain ⟨g', rfl⟩ : ∃ g', g = g' + 1 := ⟨g - 1, by omega⟩
                  simp [parseValue, hsk, h6]
                · exact Option.noConfusion h
              · simp only [h6, if_false] at h
                have hl := parseNumber_length_lt _ _ _ h
                simp only [List.length_cons] at hl
                refine ⟨by omega, fun g hgb => ?_⟩
                obtain ⟨g', rfl⟩ : ∃ g', g = g' + 1 := ⟨g - 1, by omega⟩
                simp [parseValue, hsk, h1, h2, h3, h4, h5, h6, h]

theorem parseElements_fuel_step (f : Nat)
    (hV : ∀ cs v r, parseValue f cs = some (v, r) → r.length < cs.length ∧
      ∀ g, 2 * (cs.length - r.length) ≤ g → parseValue g cs = some (v, r))
    (hE : ∀ cs vs r, parseElements f cs = some (vs, r) → r.length < cs.length ∧
      ∀ g, 2 * (cs.length - r.length) ≤ g → parseElements g cs = some (vs, r)) :
    ∀ cs vs r, parseElements (f + 1) cs = some (vs, r) → r.length < cs.length ∧
      ∀ g, 2 * (cs.length - r.length) ≤ g → parseElements g cs = some (vs, r) := by
  intro cs vs r h
  simp only [parseElements] at h
  cases hv : parseValue f cs with
  | none => simp [hv] at h
  | some t =>
    obtain ⟨v, rest⟩ := t
    obtain ⟨hl, hg⟩ := hV _ _ _ hv
    have hws := skipWs_length_le rest
    simp only [hv] at h
    cases hsk : skipWs rest with
    | nil => simp [hsk] at h
    | cons c rest2 =>
      rw [hsk] at hws
      simp only [hsk, List.length_cons] at h hws
      by_cases h1 : c = ','
      · simp only [h1, if_true] at h
        cases he : parseElements f rest2 with
        | none => simp [he] at h
        | some t2 =>
          obtain ⟨vs', r'⟩ := t2
          obtain ⟨hl2, hg2⟩ := hE _ _ _ he
          simp only [he, Option.some.injEq, Prod.mk.injEq] at h
          obtain ⟨rfl, rfl⟩ := h
          refine ⟨by omega, fun g hgb => ?_⟩
          obtain ⟨g', rfl⟩ : ∃ g', g = g' + 1 := ⟨g - 1, by omega⟩
          have hv' := hg g' (by omega)
          have he' := hg2 g' (by omega)
          simp [parseElements, hv', hsk, h1, he']
      · simp only [h1, if_false] at h
        by_cases h2 : c = ']'
        · simp only [h2, if_true, Option.some.injEq, Prod.mk.injEq] at h
          obtain ⟨rfl, rfl⟩ := h
          refine ⟨by omega, fun g hgb => ?_⟩
          obtain ⟨g', rfl⟩ : ∃ g', g = g' + 1 := ⟨g - 1, by omega⟩
          have hv' := hg g' (by omega)
          simp [parseElements, hv', hsk, h2]
        · simp [h2] at h

theorem parseMembers_fuel_step (f : Nat)
    (hV : ∀ cs v r, parseValue f cs = some (v, r) → r.length < cs.length ∧
      ∀ g, 2 * (cs.length - r.length) ≤ g → parseValue g cs = some (v, r))
    (hM : ∀ cs fs r, parseMembers f cs = some (fs, r) → r.length < cs.length ∧
      ∀ g, 2 * (cs.length - r.length) ≤ g → parseMembers g cs = some (fs, r)) :
    ∀ cs fs r, parseMembers (f + 1) cs = some (fs, r) → r.length < cs.length ∧
      ∀ g, 2 * (cs.length - r.length) ≤ g → parseMembers g cs = some (fs, r) := by
  intro cs fs r h
  have hws := skipWs_length_le cs
  simp only [parseMembers] at h
  cases hsk : skipWs cs with
  | nil => simp [hsk] at h
  | cons q rest =>
    rw [hsk] at hws
    simp only [hsk, List.length_cons] at h hws
    by_cases h1 : q = '"'
    · simp only [h1, if_true] at h
      cases hp : parseChars (rest.length + 1) rest with
      | none => simp [hp] at h
      | some t =>
        obtain ⟨k, afterKey⟩ := t
        have hlk := parseChars_length_lt _ _ _ _ hp
        have hws2 := skipWs_length_le afterKey
        simp only [hp] at h
        cases hsk2 : skipWs afterKey with
        | nil => simp [hsk2] at h
        | cons colon afterColon =>
          rw [hsk2] at hws2
          simp only [hsk2, List.length_cons] at h hws2
          by_cases h2 : colon = ':'
          · simp only [h2, if_true] at h
            cases hv : parseValue f afterColon with
            | none => simp [hv] at h
            | some t2 =>
              obtain ⟨v, rest2⟩ := t2
              obtain ⟨hl, hg⟩ := hV _ _ _ hv
              have hws3 := skipWs_length_le rest2
              simp only [hv] at h
              cases hsk3 : skipWs rest2 with
              | nil => simp [hsk3] at h
              | cons c rest3 =>
                rw [hsk3] at hws3
                simp only [hsk3, List.length_cons] at h hws3
                by_cases h3 : c = ','
                · simp only [h3, if_true] at h
                  cases hm : parseMembers f rest3 with
                  | none => simp [hm] at h
                  | some t3 =>
                    obtain ⟨fs', r'⟩ := t3
                    obtain ⟨hl2, hg2⟩ := hM _ _ _ hm
                    simp only [hm, Option.some.injEq, Prod.mk.injEq] at h
                    obtain ⟨rfl, rfl⟩ := h
                    refine ⟨by omega, fun g hgb => ?_⟩
                    obtain ⟨g', rfl⟩ : ∃ g', g = g' + 1 := ⟨g - 1, by omega⟩
                    have hv' := hg g' (by omega)
                    have hm' := hg2 g' (by omega)
                    simp [parseMembers, hsk, h1, hp, hsk2, h2, hv', hsk3, h3, hm']
                · simp only [h3, if_false] at h
                  by_cases h4 : c = '\x7d'
                  · simp only [h4, if_true, Option.some.injEq, Prod.mk.injEq] at h
                    obtain ⟨rfl, rfl⟩ := h
                    refine ⟨by omega, fun g hgb => ?_⟩
                    obtain ⟨g', rfl⟩ : ∃ g', g = g' + 1 := ⟨g - 1, by omega⟩
                    have hv' := hg g' (by omega)
                    simp [parseMembers, hsk, h1, hp, hsk2, h2, hv', hsk3, h4]
                  · simp [h4] at h
          · simp [h2] at h
    · simp [h1] at h

/-- Fuel is no part of the result: when some amount of fuel reads a value,
that value consumed at least one character, and every amount of at least
twice the number of characters consumed reads the same value. -/
theorem parse_fuel (f : Nat) :
    (∀ cs v r, parseValue f cs = some (v, r) → r.length < cs.length ∧
      ∀ g, 2 * (cs.length - r.length) ≤ g → parseValue g cs = some (v, r)) ∧
    (∀ cs vs r, parseElements f cs = some (vs, r) → r.length < cs.length ∧
      ∀ g, 2 * (cs.length - r.length) ≤ g → parseElements g cs = some (vs, r)) ∧
    (∀ cs fs r, parseMembers f cs = some (fs, r) → r.length < cs.length ∧
      ∀ g, 2 * (cs.length - r.length) ≤ g → parseMembers g cs = some (fs, r)) := by
  induction f with
  | zero =>
    refine ⟨?_, ?_, ?_⟩ <;> intro cs v r h
    · simp [parseValue] at h
    · simp [parseElements] at h
    · simp [parseMembers] at h
  | succ k ih =>
    obtain ⟨hV, hE, hM⟩ := ih
    exact ⟨parseValue_fuel_step k hE hM, parseElements_fuel_step k hV hE,
      parseMembers_fuel_step k hV hM⟩

/-- The fuel `parse` gives to `parseValue` is enough: whenever some amount of
fuel reads the whole text as the value `v`, `parse` returns `v`. -/
theorem parse_of_parseValue (text : String) (fuel : Nat) (v : JSVal) (rest : List Char)
    (h : parseValue fuel text.data = some (v, rest)) (hrest : skipWs rest = []) :
    parse text = some v := by
  obtain ⟨hl, hg⟩ := (parse_fuel fuel).1 _ _ _ h
  have h2 := hg (2 * text.data.length + 2) (by omega)
  unfold parse
  rw [h2]
  simp only [hrest]

/-- The fuel given to `parseChars` is enough: every amount of at least the
number of characters consumed reads the same string. -/
theorem parseChars_fuel (fuel : Nat) : ∀ (cs s r : List Char),
    parseChars fuel cs = some (s, r) →
    ∀ g, cs.length - r.length ≤ g → parseChars g cs = some (s, r) := by
  induction fuel with
  | zero => intro cs s r h; simp [parseChars] at h
  | succ k ih =>
    intro cs s r h g hg
    have hlt := parseChars_length_lt _ _ _ _ h
    obtain ⟨g', rfl⟩ : ∃ g', g = g' + 1 := ⟨g - 1, by omega⟩
    cases cs with
    | nil => simp [parseChars] at h
    | cons c cs =>
      unfold parseChars at h
      unfold parseChars
      simp only [List.length_cons] at hg
      split at h
      · rename_i hq
        simp only [hq, if_true]
        exact h
      · rename_i hq
        simp only [hq, if_false]
        split at h
        · rename_i hb
          simp only [hb, if_true]
          split at h
          · rename_i a b x d rest
            split at h
            · rename_i n hn
              cases hp : parseChars k (unicodeEscape n rest).2 with
              | none => simp [hp] at h
              | some t =>
                obtain ⟨s', r'⟩ := t
                have h1 := parseChars_length_lt _ _ _ _ hp
                have h2 := unicodeEscape_length_le n rest
                simp only [hp, Option.some.injEq, Prod.mk.injEq] at h
                obtain ⟨rfl, rfl⟩ := h
                simp only [List.length_cons] at hg
                have hp' := ih _ _ _ hp g' (by omega)
                simp only [hn, hp']
            · exact Option.noConfusion h
          · rename_i e rest hne
            split at h
            · rename_i ch hch
              cases hp : parseChars k rest with
              | none => simp [hp] at h
              | some t =>
                obtain ⟨s', r'⟩ := t
                have h1 := parseChars_length_lt _ _ _ _ hp
                simp only [hp, Option.some.injEq, Prod.mk.injEq] at h
                obtain ⟨rfl, rfl⟩ := h
                simp only [List.length_cons] at hg
                have hp' := ih _ _ _ hp g' (by omega)
                simp only [hch, hp']
            · exact Option.noConfusion h
          · exact Option.noConfusion h
        · rename_i hb
          simp only [hb, if_false]
          split at h
          · exact Option.noConfusion h
          · rename_i hctl
            cases hp : parseChars k cs with
            | none => simp [hp] at h
            | some t =>
              obtain ⟨s', r'⟩ := t
              have h1 := parseChars_length_lt _ _ _ _ hp
              simp only [hp, Option.some.injEq, Prod.mk.injEq] at h
              obtain ⟨rfl, rfl⟩ := h
              have hp' := ih _ _ _ hp g' (by omega)
              simp only [hctl, if_false, hp']

end JSON

/-! ## The validation steps -/

theorem orDefault_of_parse (b : String) (v : JSVal) (h : JSON.parse b = some v) :
    orDefault (some b) "\x7b\x7d" = b := by
  have hb : b ≠ "" := by
    rintro rfl
    rw [JSON.parse_empty] at h
    exact Option.noConfusion h
  simp [orDefault, truthy?, hb]

theorem invalidPriceId_str (p : String) (h : startsWith p "price_" = true) :
    invalidPriceId (JSVal.str p) = false := by
  have hp : p ≠ "" := by
    rintro rfl
    revert h
    decide
  simp [invalidPriceId, JSVal.truthy, JSVal.typeof, h, hp]

/-- After the method, body and priceId checks have passed, the `try` block is
the rest of the flow: credential, site URL, call. -/
theorem tryBlock_valid (Stripe : Stripe) (env : ProcessEnv) (event : Event) (p : String)
    (hm : event.httpMethod = "POST") (hv : ValidPriceId event p) :
    tryBlock Stripe env event =
      match truthy? env.STRIPE_SECRET_KEY with
      | none =>
        { result := Except.ok
            { statusCode := 500, headers := headers,
              body := JSON.stringify
                (JSON.Payload.error "Missing STRIPE_SECRET_KEY in environment variables") }
          logs := [LogLine.log "Received priceId:" (JSVal.str p)], calls := [] }
      | some secretKey =>
        match truthy? (siteUrl env event) with
        | none =>
          { result := Except.ok
              { statusCode := 500, headers := headers,
                body := JSON.stringify
                  (JSON.Payload.error "Could not determine site URL for redirect") }
            logs := [LogLine.log "Received priceId:" (JSVal.str p)], calls := [] }
        | some site =>
          match Stripe secretKey (sessionParams (JSVal.str p) site) with
          | CreateResult.rejected err =>
            { result := Except.error err
              logs := [LogLine.log "Received priceId:" (JSVal.str p)]
              calls := [{ secretKey := secretKey, params := sessionParams (JSVal.str p) site }] }
          | CreateResult.resolved session =>
            { result := Except.ok
                { statusCode := 200, headers := headers,
                  body := JSON.stringify (JSON.Payload.url session.url) }
              logs := [LogLine.log "Received priceId:" (JSVal.str p)]
              calls := [{ secretKey := secretKey, params := sessionParams (JSVal.str p) site }] } := by
  obtain ⟨b, fields, hb, hparse, hlook, hstart⟩ := hv
  have hinv := invalidPriceId_str p hstart
  simp [tryBlock, hm, hb, orDefault_of_parse b _ hparse, hparse, destructurePriceId, hlook, hinv]

theorem https_append_ne_empty (host : String) : "https://" ++ host ≠ "" := by
  intro h
  have hl := congrArg String.length h
  simp only [String.length_append] at hl
  have h8 : "https://".length = 8 := by decide
  have h0 : "".length = 0 := by decide
  omega

theorem validPriceId_checkoutEvent (hs : Option (List (String × String))) :
    ValidPriceId (checkoutEvent hs) "price_123" :=
  ⟨_, _, rfl, rfl, rfl, rfl⟩

/-- Every response carries the constant headers and a body written by
`JSON.stringify`; the body is that of an object with `url` only when Stripe
resolved a call with a session of that `url`. -/
theorem handler_body_is_stringified (Stripe : Stripe) (env : ProcessEnv) (event : Event) :
    ∃ payload,
      (handler Stripe env event).response.headers = headers ∧
      (handler Stripe env event).response.body = JSON.stringify payload ∧
      ∀ u, payload = JSON.Payload.url u →
        ∃ secretKey params, Stripe secretKey params = CreateResult.resolved { url := u } := by
  by_cases hm : event.httpMethod = "POST"
  · cases hp : JSON.parse (orDefault event.body "\x7b\x7d") with
    | none =>
      refine ⟨JSON.Payload.error "Invalid JSON body", ?_, ?_, ?_⟩ <;>
        simp [handler, tryBlock, hm, hp]
    | some body =>
      cases hd : destructurePriceId body with
      | error err =>
        refine ⟨JSON.Payload.error (orDefault err.message "Server error"), ?_, ?_, ?_⟩ <;>
          simp [handler, tryBlock, hm, hp, hd]
      | ok priceId =>
        by_cases hinv : invalidPriceId priceId = true
        · refine ⟨JSON.Payload.error "Missing or invalid priceId (must start with price_)",
            ?_, ?_, ?_⟩ <;> simp [handler, tryBlock, hm, hp, hd, hinv]
        · cases hk : truthy? env.STRIPE_SECRET_KEY with
          | none =>
            refine ⟨JSON.Payload.error "Missing STRIPE_SECRET_KEY in environment variables",
              ?_, ?_, ?_⟩ <;> simp [handler, tryBlock, hm, hp, hd, hinv, hk]
          | some secretKey =>
            cases hs : truthy? (siteUrl env event) with
            | none =>
              refine ⟨JSON.Payload.error "Could not determine site URL for redirect",
                ?_, ?_, ?_⟩ <;> simp [handler, tryBlock, hm, hp, hd, hinv, hk, hs]
            | some site =>
              cases hc : Stripe secretKey (sessionParams priceId site) with
              | rejected err =>
                refine ⟨JSON.Payload.error (orDefault err.message "Server error"), ?_, ?_, ?_⟩ <;>
                  simp [handler, tryBlock, hm, hp, hd, hinv, hk, hs, hc]
              | resolved session =>
                refine ⟨JSON.Payload.url session.url, ?_, ?_, ?_⟩
                · simp [handler, tryBlock, hm, hp, hd, hinv, hk, hs, hc]
                · simp [handler, tryBlock, hm, hp, hd, hinv, hk, hs, hc]
                · intro u hu
                  cases hu
                  exact ⟨secretKey, sessionParams priceId site, hc⟩
  · refine ⟨JSON.Payload.error "Method Not Allowed", ?_, ?_, ?_⟩ <;>
      simp [handler, tryBlock, hm]

/-! ## The claims -/

/-- C1: for a POST whose body is an object with a string `priceId` starting
with `price_`, a non-empty secret key, a resolvable site URL and a client that
resolves with a session of URL `u`, Stripe is called once, with mode
`payment`, the single line item of that price and quantity 1, required billing
address and phone number collection enabled; the response is 200 with the JSON
encoding of the object whose `url` is `u`. -/
theorem handler_creates_session (Stripe : Stripe) (env : ProcessEnv) (event : Event)
    (priceId secretKey site u : String)
    (hmethod : event.httpMethod = "POST")
    (hprice : ValidPriceId event priceId)
    (hkey : truthy? env.STRIPE_SECRET_KEY = some secretKey)
    (hsite : truthy? (siteUrl env event) = some site)
    (hstripe : Stripe secretKey (sessionParams (JSVal.str priceId) site) =
      CreateResult.resolved { url := some u }) :
    (∃ params,
      (handler Stripe env event).calls = [{ secretKey := secretKey, params := params }] ∧
      params.mode = "payment" ∧
      params.line_items = [{ price := JSVal.str priceId, quantity := 1 }] ∧
      params.billing_address_collection = "required" ∧
      params.phone_number_collection.enabled = true) ∧
    (handler Stripe env event).response =
      { statusCode := 200, headers := [("Content-Type", "application/json")],
        body := JSON.stringify (JSON.Payload.url (some u)) } ∧
    JSON.parse (handler Stripe env event).response.body =
      some (JSVal.obj [("url", JSVal.str u)]) := by
  have ht := tryBlock_valid Stripe env event priceId hmethod hprice
  simp only [hkey, hsite, hstripe] at ht
  simp only [handler, ht]
  exact ⟨⟨_, rfl, rfl, rfl, rfl, rfl⟩, rfl, JSON.parse_stringify_url u⟩

/-- Witness of C1: the sample checkout request answers 200 with the session's
URL. -/
theorem handler_creates_session_witness :
    (handler resolvingStripe keyOnlyEnv (checkoutEvent (some [("host", "shop.example")]))).response =
      { statusCode := 200, headers := [("Content-Type", "application/json")],
        body := "\x7b\"url\":\"https://checkout.stripe.com/c/pay/cs_test_a1\"\x7d" } :=
  (handler_creates_session resolvingStripe keyOnlyEnv
    (checkoutEvent (some [("host", "shop.example")]))
    "price_123" "sk_test_123" "https://shop.example"
    "https://checkout.stripe.com/c/pay/cs_test_a1" rfl
    (validPriceId_checkoutEvent _) rfl rfl rfl).2.1

/-- C2, at the body `null`: the text parses, to a value without `priceId`, and
the handler answers 500 with the message of the `TypeError` thrown by the
destructuring, after logging it as an error; the claim states 400. -/
theorem handler_null_body_answers_500 :
    JSON.parse "null" = some JSVal.null ∧
    (handler resolvingStripe keyOnlyEnv (postEvent "null")).response =
      { statusCode := 500, headers := [("Content-Type", "application/json")],
        body := "\x7b\"error\":\"Cannot destructure property 'priceId' of 'body' as it is null.\"\x7d" } ∧
    ((handler resolvingStripe keyOnlyEnv (postEvent "null")).logs.filter LogLine.isError).length = 1 :=
  ⟨rfl, rfl, rfl⟩

/-- Every parsed value that can be destructured (every value but `null`) and
lacks a usable `priceId` is answered 400: the body parses to `v`, the
destructuring of `v` yields `priceId`, and `priceId` fails the test. -/
theorem handler_rejects_invalid_priceId (Stripe : Stripe) (env : ProcessEnv) (event : Event)
    (b : String) (v priceId : JSVal)
    (hmethod : event.httpMethod = "POST")
    (hbody : event.body = some b)
    (hparse : JSON.parse b = some v)
    (hread : destructurePriceId v = Except.ok priceId)
    (hinvalid : invalidPriceId priceId = true) :
    (handler Stripe env event).response =
      { statusCode := 400, headers := [("Content-Type", "application/json")],
        body := "\x7b\"error\":\"Missing or invalid priceId (must start with price_)\"\x7d" } ∧
    (handler Stripe env event).calls = [] := by
  simp [handler, tryBlock, hmethod, hbody, orDefault_of_parse b v hparse, hparse, hread, hinvalid]
  exact ⟨rfl, rfl⟩

/-- C3: a request whose method is not `POST` is answered 405 with the body
`{"error":"Method Not Allowed"}`, whatever the body, headers, environment and
client are, and Stripe is not called. -/
theorem handler_rejects_other_methods (Stripe : Stripe) (env : ProcessEnv) (event : Event)
    (hmethod : event.httpMethod ≠ "POST") :
    (handler Stripe env event).response =
      { statusCode := 405, headers := [("Content-Type", "application/json")],
        body := "\x7b\"error\":\"Method Not Allowed\"\x7d" } ∧
    (handler Stripe env event).calls = [] := by
  simp [handler, tryBlock, hmethod]
  exact ⟨rfl, rfl⟩

/-- Witness of C3: a GET carrying a valid checkout body. -/
theorem handler_rejects_other_methods_witness :
    (handler resolvingStripe shopEnv
      { httpMethod := "GET", body := some "\x7b\"priceId\":\"price_123\"\x7d",
        headers := some [("host", "shop.example")] }).response.statusCode = 405 ∧
    (handler resolvingStripe shopEnv
      { httpMethod := "GET", body := some "\x7b\"priceId\":\"price_123\"\x7d",
        headers := some [("host", "shop.example")] }).calls = [] :=
  ⟨congrArg Response.statusCode
      (handler_rejects_other_methods resolvingStripe shopEnv
        { httpMethod := "GET", body := some "\x7b\"priceId\":\"price_123\"\x7d",
          headers := some [("host", "shop.example")] } (by decide)).1,
    (handler_rejects_other_methods resolvingStripe shopEnv
        { httpMethod := "GET", body := some "\x7b\"priceId\":\"price_123\"\x7d",
          headers := some [("host", "shop.example")] } (by decide)).2⟩

/-- C4 as stated fails at the empty body: the text does not parse as JSON, yet
the handler reads `{}` in its place and answers with the invalid-priceId
message instead of `Invalid JSON body`. -/
theorem handler_empty_body_is_not_invalid_json :
    (postEvent "").httpMethod = "POST" ∧
    (postEvent "").body = some "" ∧
    JSON.parse "" = none ∧
    (handler resolvingStripe keyOnlyEnv (postEvent "")).response =
      { statusCode := 400, headers := [("Content-Type", "application/json")],
        body := "\x7b\"error\":\"Missing or invalid priceId (must start with price_)\"\x7d" } ∧
    (handler resolvingStripe keyOnlyEnv (postEvent "")).response.body ≠
      "\x7b\"error\":\"Invalid JSON body\"\x7d" :=
  ⟨rfl, rfl, rfl, rfl, by decide⟩

/-- C4, amended: a POST whose body is a non-empty string that fails to parse as
JSON is answered 400 with the body `{"error":"Invalid JSON body"}`, whatever
the environment, the headers and the client are; Stripe is not called. -/
theorem handler_rejects_malformed_body (Stripe : Stripe) (env : ProcessEnv) (event : Event)
    (b : String)
    (hmethod : event.httpMethod = "POST")
    (hbody : event.body = some b)
    (hnonempty : b ≠ "")
    (hparse : JSON.parse b = none) :
    (handler Stripe env event).response =
      { statusCode := 400, headers := [("Content-Type", "application/json")],
        body := "\x7b\"error\":\"Invalid JSON body\"\x7d" } ∧
    (handler Stripe env event).calls = [] := by
  simp [handler, tryBlock, hmethod, hbody, orDefault, truthy?, hnonempty, hparse]
  exact ⟨rfl, rfl⟩

/-- Witness of C4: a body that stops after the opening brace. -/
theorem handler_rejects_malformed_body_witness :
    (handler resolvingStripe shopEnv (postEvent "\x7b\"priceId\":")).response =
      { statusCode := 400, headers := [("Content-Type", "application/json")],
        body := "\x7b\"error\":\"Invalid JSON body\"\x7d" } :=
  (handler_rejects_malformed_body resolvingStripe shopEnv (postEvent "\x7b\"priceId\":")
    "\x7b\"priceId\":" rfl rfl (by decide) rfl).1

/-- C5: for a POST with a valid `priceId`, when `STRIPE_SECRET_KEY` is absent
from the environment the answer is 500 with the body
`{"error":"Missing STRIPE_SECRET_KEY in environment variables"}` and Stripe is
not called, whatever `URL` and the headers are. -/
theorem handler_missing_secret_key (Stripe : Stripe) (env : ProcessEnv) (event : Event)
    (priceId : String)
    (hmethod : event.httpMethod = "POST")
    (hprice : ValidPriceId event priceId)
    (hkey : env.STRIPE_SECRET_KEY = none) :
    (handler Stripe env event).response =
      { statusCode := 500, headers := [("Content-Type", "application/json")],
        body := "\x7b\"error\":\"Missing STRIPE_SECRET_KEY in environment variables\"\x7d" } ∧
    (handler Stripe env event).calls = [] := by
  have ht := tryBlock_valid Stripe env event priceId hmethod hprice
  rw [hkey] at ht
  unfold handler
  rw [ht]
  exact ⟨rfl, rfl⟩

/-- Witness of C5: the sample checkout request in an environment that only
sets `URL`. -/
theorem handler_missing_secret_key_witness :
    (handler resolvingStripe { STRIPE_SECRET_KEY := none, URL := some "https://shop.example" }
      (checkoutEvent (some [("host", "shop.example")]))).response.statusCode = 500 ∧
    (handler resolvingStripe { STRIPE_SECRET_KEY := none, URL := some "https://shop.example" }
      (checkoutEvent (some [("host", "shop.example")]))).calls = [] :=
  ⟨congrArg Response.statusCode
      (handler_missing_secret_key resolvingStripe
        { STRIPE_SECRET_KEY := none, URL := some "https://shop.example" }
        (checkoutEvent (some [("host", "shop.example")])) "price_123" rfl
        (validPriceId_checkoutEvent _) rfl).1,
    (handler_missing_secret_key resolvingStripe
        { STRIPE_SECRET_KEY := none, URL := some "https://shop.example" }
        (checkoutEvent (some [("host", "shop.example")])) "price_123" rfl
        (validPriceId_checkoutEvent _) rfl).2⟩

/-- C6, at a headers object without `origin` and `host`, `URL` unset: the
site URL becomes `https://undefined`, the guard does not fire, Stripe is
called with redirect URLs on that base and the answer is 200; the claim states
500 and no call. -/
theorem handler_headers_without_host_calls_stripe :
    siteUrl keyOnlyEnv (checkoutEvent (some [])) = some "https://undefined" ∧
    (handler resolvingStripe keyOnlyEnv (checkoutEvent (some []))).response.statusCode = 200 ∧
    (handler resolvingStripe keyOnlyEnv (checkoutEvent (some []))).calls.map
        (fun call => (call.params.success_url, call.params.cancel_url)) =
      [("https://undefined/success.html", "https://undefined/cancel.html")] :=
  ⟨rfl, rfl, rfl⟩

/-- The guard on the site URL does fire when the event has no headers object:
with `URL` unset or empty the answer is 500 with the body
`{"error":"Could not determine site URL for redirect"}` and Stripe is not
called. -/
theorem handler_unresolvable_site_url (Stripe : Stripe) (env : ProcessEnv) (event : Event)
    (priceId secretKey : String)
    (hmethod : event.httpMethod = "POST")
    (hprice : ValidPriceId event priceId)
    (hkey : truthy? env.STRIPE_SECRET_KEY = some secretKey)
    (hurl : truthy? env.URL = none)
    (hheaders : event.headers = none) :
    (handler Stripe env event).response =
      { statusCode := 500, headers := [("Content-Type", "application/json")],
        body := "\x7b\"error\":\"Could not determine site URL for redirect\"\x7d" } ∧
    (handler Stripe env event).calls = [] := by
  have ht := tryBlock_valid Stripe env event priceId hmethod hprice
  have hsite : truthy? (siteUrl env event) = none := by
    simp only [siteUrl, orElse, hurl, hheaders]
    rfl
  simp only [hkey, hsite] at ht
  unfold handler
  rw [ht]
  exact ⟨rfl, rfl⟩

/-- C7: when all five validation steps pass and the call to Stripe is
rejected with `err`, the answer is 500; its body is `{"error": m}` when `err`
carries a non-empty message `m`, and `{"error":"Server error"}` when it
carries no message or an empty one; the one error-level console line of the
run is the one written for `err`. -/
theorem handler_reports_stripe_failure (Stripe : Stripe) (env : ProcessEnv) (event : Event)
    (priceId secretKey site : String) (err : JSError)
    (hmethod : event.httpMethod = "POST")
    (hprice : ValidPriceId event priceId)
    (hkey : truthy? env.STRIPE_SECRET_KEY = some secretKey)
    (hsite : truthy? (siteUrl env event) = some site)
    (hstripe : Stripe secretKey (sessionParams (JSVal.str priceId) site) =
      CreateResult.rejected err) :
    (handler Stripe env event).response.statusCode = 500 ∧
    (handler Stripe env event).response.headers = [("Content-Type", "application/json")] ∧
    (∀ m, err.message = some m → m ≠ "" →
      (handler Stripe env event).response.body = JSON.stringify (JSON.Payload.error m)) ∧
    (err.message = none ∨ err.message = some "" →
      (handler Stripe env event).response.body = "\x7b\"error\":\"Server error\"\x7d") ∧
    (handler Stripe env event).logs.filter LogLine.isError =
      [LogLine.error "Stripe error:" err] ∧
    ((handler Stripe env event).logs.filter LogLine.isError).length = 1 := by
  have ht := tryBlock_valid Stripe env event priceId hmethod hprice
  simp only [hkey, hsite, hstripe] at ht
  unfold handler
  rw [ht]
  refine ⟨rfl, rfl, ?_, ?_, rfl, rfl⟩
  · intro m hm hne
    simp [orDefault, truthy?, hm, hne]
  · rintro (hm | hm) <;> simp [orDefault, truthy?, hm] <;> rfl

/-- Witness of C7: Stripe rejects the sample checkout request for an unknown
price. -/
theorem handler_reports_stripe_failure_witness :
    (handler rejectingStripe shopEnv (checkoutEvent none)).response.statusCode = 500 ∧
    (handler rejectingStripe shopEnv (checkoutEvent none)).response.body =
      "\x7b\"error\":\"No such price: 'price_123'\"\x7d" ∧
    ((handler rejectingStripe shopEnv (checkoutEvent none)).logs.filter LogLine.isError).length = 1 :=
  have h := handler_reports_stripe_failure rejectingStripe shopEnv (checkoutEvent none)
    "price_123" "sk_test_123" "https://shop.example"
    { name := "StripeInvalidRequestError", message := some "No such price: 'price_123'" }
    rfl (validPriceId_checkoutEvent _) rfl rfl rfl
  ⟨h.1, h.2.2.1 "No such price: 'price_123'" rfl (by decide), h.2.2.2.2.2⟩

/-- C8 as stated fails for an event without a headers object when `URL` is
unset: the method, body, priceId and credential checks pass, and Stripe
receives nothing, because the handler answers 500 at the site URL guard. -/
theorem handler_without_headers_makes_no_call :
    (checkoutEvent none).httpMethod = "POST" ∧
    ValidPriceId (checkoutEvent none) "price_123" ∧
    truthy? keyOnlyEnv.STRIPE_SECRET_KEY = some "sk_test_123" ∧
    (handler resolvingStripe keyOnlyEnv (checkoutEvent none)).calls = [] ∧
    (handler resolvingStripe keyOnlyEnv (checkoutEvent none)).response.statusCode = 500 :=
  ⟨rfl, ⟨_, _, rfl, rfl, rfl, rfl⟩, rfl, rfl, rfl⟩

/-- C8, amended: when the method, body, priceId and credential checks pass,
Stripe is called once with `success_url = s ++ "/success.html"` and
`cancel_url = s ++ "/cancel.html"`, where `s` is `URL` when that variable is
set and non-empty (whatever the headers are); otherwise the `origin` header
when the event has headers and it is non-empty; otherwise `"https://" ++ host`
when the event has headers with a `host` header. -/
theorem handler_redirect_urls (Stripe : Stripe) (env : ProcessEnv) (event : Event)
    (priceId secretKey : String)
    (hmethod : event.httpMethod = "POST")
    (hprice : ValidPriceId event priceId)
    (hkey : truthy? env.STRIPE_SECRET_KEY = some secretKey) :
    (∀ u, env.URL = some u → u ≠ "" → CalledWithBase (handler Stripe env event) u) ∧
    (∀ hs origin, truthy? env.URL = none → event.headers = some hs →
      hs.lookup "origin" = some origin → origin ≠ "" →
      CalledWithBase (handler Stripe env event) origin) ∧
    (∀ hs host, truthy? env.URL = none → event.headers = some hs →
      truthy? (hs.lookup "origin") = none → hs.lookup "host" = some host →
      CalledWithBase (handler Stripe env event) ("https://" ++ host)) := by
  have ht := tryBlock_valid Stripe env event priceId hmethod hprice
  have key : ∀ site, truthy? (siteUrl env event) = some site →
      CalledWithBase (handler Stripe env event) site := by
    intro site hsite
    simp only [hkey, hsite] at ht
    unfold CalledWithBase handler
    rw [ht]
    cases Stripe secretKey (sessionParams (JSVal.str priceId) site) <;>
      exact ⟨_, rfl, rfl, rfl⟩
  refine ⟨?_, ?_, ?_⟩
  · intro u hu hne
    apply key
    simp [siteUrl, orElse, truthy?, hu, hne]
  · intro hs origin hurl hh ho hne
    apply key
    simp only [siteUrl, orElse, hurl, hh, ho]
    simp [truthy?, hne]
  · intro hs host hurl hh ho hhost
    apply key
    simp only [siteUrl, orElse, hurl, hh, ho, hhost, interpolate]
    simp [truthy?, https_append_ne_empty]

/-- Witness of C8: with `URL` set to `https://shop.example` the sample
checkout request reaches Stripe with the redirect URLs of the scenario. -/
theorem handler_redirect_urls_witness :
    (handler resolvingStripe shopEnv (checkoutEvent none)).calls.map
        (fun call => (call.params.success_url, call.params.cancel_url)) =
      [("https://shop.example/success.html", "https://shop.example/cancel.html")] := by
  obtain ⟨call, hcalls, hsuccess, hcancel⟩ :=
    (handler_redirect_urls resolvingStripe shopEnv (checkoutEvent none)
      "price_123" "sk_test_123" rfl (validPriceId_checkoutEvent _) rfl).1
      "https://shop.example" rfl (by decide)
  rw [hcalls]
  simp [hsuccess, hcancel]

/-- C9 as stated fails when Stripe resolves with a session whose `url` is
`null`: the answer is 200 with the body `{"url":null}`, an object that has
neither a string-valued `url` nor a string-valued `error`. -/
theorem handler_null_url_is_not_a_string :
    (handler urllessStripe keyOnlyEnv (checkoutEvent (some [("host", "shop.example")]))).response =
      { statusCode := 200, headers := [("Content-Type", "application/json")],
        body := "\x7b\"url\":null\x7d" } ∧
    ¬ ∃ fields,
      JSON.parse
        (handler urllessStripe keyOnlyEnv
          (checkoutEvent (some [("host", "shop.example")]))).response.body =
        some (JSVal.obj fields) ∧
      ((∃ u, lookupLast "url" fields = some (JSVal.str u)) ∨
       (∃ m, lookupLast "error" fields = some (JSVal.str m))) := by
  refine ⟨rfl, ?_⟩
  rintro ⟨fields, hparse, hfield⟩
  have hbody : JSON.parse
      (handler urllessStripe keyOnlyEnv
        (checkoutEvent (some [("host", "shop.example")]))).response.body =
      some (JSVal.obj [("url", JSVal.null)]) := rfl
  rw [hbody] at hparse
  cases hparse
  rcases hfield with ⟨u, hu⟩ | ⟨m, hm⟩
  · simp [lookupLast] at hu
  · simp [lookupLast] at hm

/-- C9, amended: for every event, environment and client, the response has
the headers `{"Content-Type": "application/json"}` and a non-empty body that
is valid JSON for an object with one property: a string-valued `error`, or
`url` holding the URL of the session Stripe resolved with, which is a string
or, for a session without URL, `null`. -/
theorem handler_response_shape (Stripe : Stripe) (env : ProcessEnv) (event : Event) :
    (handler Stripe env event).response.headers = [("Content-Type", "application/json")] ∧
    (handler Stripe env event).response.body ≠ "" ∧
    ((∃ m, JSON.parse (handler Stripe env event).response.body =
        some (JSVal.obj [("error", JSVal.str m)])) ∨
     (∃ u, JSON.parse (handler Stripe env event).response.body =
        some (JSVal.obj [("url", JSVal.str u)]) ∧
        ∃ secretKey params, Stripe secretKey params = CreateResult.resolved { url := some u }) ∨
     (JSON.parse (handler Stripe env event).response.body =
        some (JSVal.obj [("url", JSVal.null)]) ∧
        ∃ secretKey params, Stripe secretKey params = CreateResult.resolved { url := none })) := by
  obtain ⟨payload, hheaders, hbody, hurl⟩ := handler_body_is_stringified Stripe env event
  have hshape :
      (∃ m, JSON.parse (JSON.stringify payload) = some (JSVal.obj [("error", JSVal.str m)])) ∨
      (∃ u, JSON.parse (JSON.stringify payload) = some (JSVal.obj [("url", JSVal.str u)]) ∧
        ∃ secretKey params, Stripe secretKey params = CreateResult.resolved { url := some u }) ∨
      (JSON.parse (JSON.stringify payload) = some (JSVal.obj [("url", JSVal.null)]) ∧
        ∃ secretKey params, Stripe secretKey params = CreateResult.resolved { url := none }) := by
    cases payload with
    | error m => exact Or.inl ⟨m, JSON.parse_stringify_error m⟩
    | url u =>
      cases u with
      | some u => exact Or.inr (Or.inl ⟨u, JSON.parse_stringify_url u, hurl _ rfl⟩)
      | none => exact Or.inr (Or.inr ⟨JSON.parse_stringify_url_null, hurl _ rfl⟩)
  rw [hbody]
  refine ⟨hheaders, ?_, hshape⟩
  intro hempty
  rw [hempty, JSON.parse_empty] at hshape
  rcases hshape with ⟨_, h⟩ | ⟨_, h, _⟩ | ⟨h, _⟩ <;> exact Option.noConfusion h

/-- C10: the handler is a total function of the event, the environment and the
client, so every invocation completes with a response.  Whatever the `try`
block throws is answered by the `catch` clause with 500 and a JSON body whose
`error` is the message of the error, or `Server error`.  In particular a body
that parses to `null` is answered 500, and a body that parses to any other
value that is not an object is answered 400; both bodies are JSON objects with
an `error` string. -/
theorem handler_recovers_every_error (Stripe : Stripe) (env : ProcessEnv) (event : Event) :
    (∀ err, (tryBlock Stripe env event).result = Except.error err →
      (handler Stripe env event).response =
        { statusCode := 500, headers := [("Content-Type", "application/json")],
          body := JSON.stringify (JSON.Payload.error (orDefault err.message "Server error")) } ∧
      JSON.parse (handler Stripe env event).response.body =
        some (JSVal.obj [("error", JSVal.str (orDefault err.message "Server error"))])) ∧
    (∀ b, event.httpMethod = "POST" → event.body = some b → JSON.parse b = some JSVal.null →
      (handler Stripe env event).response.statusCode = 500 ∧
      ∃ m, JSON.parse (handler Stripe env event).response.body =
        some (JSVal.obj [("error", JSVal.str m)])) ∧
    (∀ b v, event.httpMethod = "POST" → event.body = some b → JSON.parse b = some v →
      v ≠ JSVal.null → (∀ fields, v ≠ JSVal.obj fields) →
      (handler Stripe env event).response.statusCode = 400 ∧
      ∃ m, JSON.parse (handler Stripe env event).response.body =
        some (JSVal.obj [("error", JSVal.str m)])) := by
  refine ⟨?_, ?_, ?_⟩
  · intro err herr
    have hr : (handler Stripe env event).response =
        { statusCode := 500, headers := [("Content-Type", "application/json")],
          body := JSON.stringify (JSON.Payload.error (orDefault err.message "Server error")) } := by
      unfold handler
      simp only [herr]
      rfl
    rw [hr]
    exact ⟨rfl, JSON.parse_stringify_error _⟩
  · intro b hm hb hp
    have hr : (handler Stripe env event).response =
        { statusCode := 500, headers := [("Content-Type", "application/json")],
          body := JSON.stringify (JSON.Payload.error
            "Cannot destructure property 'priceId' of 'body' as it is null.") } := by
      simp [handler, tryBlock, hm, hb, orDefault_of_parse b _ hp, hp, destructurePriceId]
      exact ⟨rfl, rfl⟩
    rw [hr]
    exact ⟨rfl, _, JSON.parse_stringify_error _⟩
  · intro b v hm hb hp hnull hobj
    have hundef : v ≠ JSVal.undefined := fun hv => JSON.parse_ne_undefined b (hv ▸ hp)
    have hread : destructurePriceId v = Except.ok JSVal.undefined := by
      cases v with
      | null => exact absurd rfl hnull
      | undefined => exact absurd rfl hundef
      | obj fields => exact absurd rfl (hobj fields)
      | bool _ => rfl
      | num _ _ _ => rfl
      | str _ => rfl
      | arr _ => rfl
    have hr := (handler_rejects_invalid_priceId Stripe env event b v JSVal.undefined
      hm hb hp hread rfl).1
    rw [hr]
    exact ⟨rfl, _, JSON.parse_stringify_error
      "Missing or invalid priceId (must start with price_)"⟩

/-- Witness of C10: the body `null` makes the destructuring throw, and the
`catch` clause answers 500 with the message of the `TypeError`. -/
theorem handler_recovers_every_error_witness :
    (tryBlock resolvingStripe keyOnlyEnv (postEvent "null")).result =
      Except.error
        { name := "TypeError",
          message := some "Cannot destructure property 'priceId' of 'body' as it is null." } ∧
    (handler resolvingStripe keyOnlyEnv (postEvent "null")).response =
      { statusCode := 500, headers := [("Content-Type", "application/json")],
        body := "\x7b\"error\":\"Cannot destructure property 'priceId' of 'body' as it is null.\"\x7d" } ∧
    (handler resolvingStripe keyOnlyEnv (postEvent "[1, 2]")).response.statusCode = 400 :=
  ⟨rfl,
    ((handler_recovers_every_error resolvingStripe keyOnlyEnv (postEvent "null")).1 _ rfl).1,
    ((handler_recovers_every_error resolvingStripe keyOnlyEnv (postEvent "[1, 2]")).2.2
      "[1, 2]" _ rfl rfl rfl (fun h => JSVal.noConfusion h)
      (fun _ h => JSVal.noConfusion h)).1⟩

/-! ## The paths through the handler -/

theorem truthy?_eq_some (a : Option String) (s : String) (h : truthy? a = some s) :
    a = some s ∧ s ≠ "" := by
  cases a with
  | none => simp [truthy?] at h
  | some t =>
    by_cases ht : t = ""
    · simp [truthy?, ht] at h
    · simp [truthy?, ht] at h
      subst h
      exact ⟨rfl, ht⟩

/-- A `priceId` that passes the test is a string read from a body that is JSON
text for an object. -/
theorem validPriceId_of_passes (event : Event) (v priceId : JSVal)
    (hparse : JSON.parse (orDefault event.body "\x7b\x7d") = some v)
    (hread : destructurePriceId v = Except.ok priceId)
    (hpass : invalidPriceId priceId = false) :
    ∃ p, priceId = JSVal.str p ∧ ValidPriceId event p := by
  cases priceId with
  | str p =>
    have hstart : startsWith p "price_" = true := by
      simp [invalidPriceId, JSVal.truthy, JSVal.typeof] at hpass
      exact hpass.2
    refine ⟨p, rfl, ?_⟩
    cases v with
    | obj fields =>
      have hlook : lookupLast "priceId" fields = some (JSVal.str p) := by
        simp only [destructurePriceId, Except.ok.injEq] at hread
        cases hl : lookupLast "priceId" fields with
        | none => simp [hl] at hread
        | some w => simp [hl] at hread; rw [hread]
      cases hb : event.body with
      | none =>
        rw [hb] at hparse
        have h0 : JSON.parse (orDefault none "\x7b\x7d") = some (JSVal.obj []) := rfl
        rw [h0] at hparse
        cases hparse
        simp [lookupLast] at hlook
      | some b =>
        by_cases hempty : b = ""
        · rw [hb, hempty] at hparse
          have h0 : JSON.parse (orDefault (some "") "\x7b\x7d") = some (JSVal.obj []) := rfl
          rw [h0] at hparse
          cases hparse
          simp [lookupLast] at hlook
        · have htext : orDefault (some b) "\x7b\x7d" = b := by
            simp [orDefault, truthy?, hempty]
          rw [hb, htext] at hparse
          exact ⟨b, fields, hb, hparse, hlook, hstart⟩
    | null => simp [destructurePriceId] at hread
    | undefined => simp [destructurePriceId] at hread
    | bool _ => simp [destructurePriceId] at hread
    | num _ _ _ => simp [destructurePriceId] at hread
    | str _ => simp [destructurePriceId] at hread
    | arr _ => simp [destructurePriceId] at hread
  | undefined => simp [invalidPriceId, JSVal.truthy] at hpass
  | null => simp [invalidPriceId, JSVal.truthy] at hpass
  | bool b => simp [invalidPriceId, JSVal.truthy, JSVal.typeof] at hpass
  | num _ _ _ => simp [invalidPriceId, JSVal.truthy, JSVal.typeof] at hpass
  | arr _ => simp [invalidPriceId, JSVal.truthy, JSVal.typeof] at hpass
  | obj _ => simp [invalidPriceId, JSVal.truthy, JSVal.typeof] at hpass

/-- Every invocation takes one of two kinds of path.  Either Stripe is not
called, the status is 405, 400 or 500, and no error-level line is written
unless the status is 500; or all checks pass, Stripe is called once with the
parameters built from the `priceId` and the site URL, and the answer is 500
with one error-level line when the call is rejected and 200 with none when it
resolves. -/
theorem handler_paths (Stripe : Stripe) (env : ProcessEnv) (event : Event) :
    ((handler Stripe env event).calls = [] ∧
      ((handler Stripe env event).response.statusCode = 405 ∨
       (handler Stripe env event).response.statusCode = 400 ∨
       (handler Stripe env event).response.statusCode = 500) ∧
      ((handler Stripe env event).response.statusCode ≠ 500 →
        (handler Stripe env event).logs.filter LogLine.isError = [])) ∨
    (∃ priceId secretKey site,
      event.httpMethod = "POST" ∧ ValidPriceId event priceId ∧
      truthy? env.STRIPE_SECRET_KEY = some secretKey ∧
      truthy? (siteUrl env event) = some site ∧
      (handler Stripe env event).calls =
        [{ secretKey := secretKey, params := sessionParams (JSVal.str priceId) site }] ∧
      ((∃ err, Stripe secretKey (sessionParams (JSVal.str priceId) site) =
            CreateResult.rejected err ∧
          (handler Stripe env event).response.statusCode = 500 ∧
          (handler Stripe env event).logs.filter LogLine.isError =
            [LogLine.error "Stripe error:" err]) ∨
       (∃ session, Stripe secretKey (sessionParams (JSVal.str priceId) site) =
            CreateResult.resolved session ∧
          (handler Stripe env event).response.statusCode = 200 ∧
          (handler Stripe env event).logs.filter LogLine.isError = []))) := by
  by_cases hm : event.httpMethod = "POST"
  · cases hp : JSON.parse (orDefault event.body "\x7b\x7d") with
    | none =>
      left
      simp [handler, tryBlock, hm, hp]
    | some body =>
      cases hd : destructurePriceId body with
      | error err =>
        left
        simp [handler, tryBlock, hm, hp, hd]
      | ok priceId =>
        cases hinv : invalidPriceId priceId with
        | true =>
          left
          simp [handler, tryBlock, hm, hp, hd, hinv, LogLine.isError]
        | false =>
          obtain ⟨p, rfl, hvalid⟩ := validPriceId_of_passes event body priceId hp hd hinv
          have ht := tryBlock_valid Stripe env event p hm hvalid
          cases hk : truthy? env.STRIPE_SECRET_KEY with
          | none =>
            left
            simp only [hk] at ht
            simp [handler, ht, LogLine.isError]
          | some secretKey =>
            cases hs : truthy? (siteUrl env event) with
            | none =>
              left
              simp only [hk, hs] at ht
              simp [handler, ht, LogLine.isError]
            | some site =>
              right
              refine ⟨p, secretKey, site, hm, hvalid, rfl, rfl, ?_⟩
              cases hc : Stripe secretKey (sessionParams (JSVal.str p) site) with
              | rejected err =>
                simp only [hk, hs, hc] at ht
                refine ⟨?_, Or.inl ⟨err, rfl, ?_, ?_⟩⟩ <;> simp [handler, ht, LogLine.isError]
              | resolved session =>
                simp only [hk, hs, hc] at ht
                refine ⟨?_, Or.inr ⟨session, rfl, ?_, ?_⟩⟩ <;> simp [handler, ht, LogLine.isError]
  · left
    simp [handler, tryBlock, hm]

/-! ## The claims on logging, on the calls and on the empty body -/

/-- C11 as stated fails on the two guards that answer 500: with the secret key
unset, and with the key set but no site URL to be found, the sample checkout
request is answered 500 and no error-level line is written. -/
theorem handler_guards_answer_500_without_error_line :
    (handler resolvingStripe { STRIPE_SECRET_KEY := none, URL := none }
      (checkoutEvent (some [("host", "shop.example")]))).response.statusCode = 500 ∧
    (handler resolvingStripe { STRIPE_SECRET_KEY := none, URL := none }
      (checkoutEvent (some [("host", "shop.example")]))).logs.filter LogLine.isError = [] ∧
    (handler resolvingStripe keyOnlyEnv (checkoutEvent none)).response.statusCode = 500 ∧
    (handler resolvingStripe keyOnlyEnv (checkoutEvent none)).logs.filter LogLine.isError = [] :=
  ⟨rfl, rfl, rfl, rfl⟩

/-- C11, amended: when the call to Stripe is rejected the answer is 500 and the
error-level line for that error has been written; when the answer is a 4xx no
error-level line has been written; and the 500 answers for a missing
credential and for an unresolvable site URL are given without an error-level
line. -/
theorem handler_error_logging (Stripe : Stripe) (env : ProcessEnv) (event : Event) :
    (∀ call err, call ∈ (handler Stripe env event).calls →
      Stripe call.secretKey call.params = CreateResult.rejected err →
      (handler Stripe env event).response.statusCode = 500 ∧
      (handler Stripe env event).logs.filter LogLine.isError =
        [LogLine.error "Stripe error:" err]) ∧
    (400 ≤ (handler Stripe env event).response.statusCode →
      (handler Stripe env event).response.statusCode < 500 →
      (handler Stripe env event).logs.filter LogLine.isError = []) ∧
    (∀ priceId, event.httpMethod = "POST" → ValidPriceId event priceId →
      truthy? env.STRIPE_SECRET_KEY = none →
      (handler Stripe env event).response.statusCode = 500 ∧
      (handler Stripe env event).logs.filter LogLine.isError = []) ∧
    (∀ priceId secretKey, event.httpMethod = "POST" → ValidPriceId event priceId →
      truthy? env.STRIPE_SECRET_KEY = some secretKey →
      truthy? (siteUrl env event) = none →
      (handler Stripe env event).response.statusCode = 500 ∧
      (handler Stripe env event).logs.filter LogLine.isError = []) := by
  refine ⟨?_, ?_, ?_, ?_⟩
  · intro call err hcall hrejected
    rcases handler_paths Stripe env event with ⟨hnone, _, _⟩ |
      ⟨p, secretKey, site, _, _, _, _, hcalls, hresult⟩
    · rw [hnone] at hcall
      exact absurd hcall (List.not_mem_nil call)
    · rw [hcalls] at hcall
      have hc := List.mem_singleton.mp hcall
      subst hc
      rcases hresult with ⟨err', hc', hstatus, hlogs⟩ | ⟨session, hc', _, _⟩
      · rw [hrejected] at hc'
        cases hc'
        exact ⟨hstatus, hlogs⟩
      · rw [hrejected] at hc'
        cases hc'
  · intro hlow hhigh
    rcases handler_paths Stripe env event with ⟨_, _, hquiet⟩ |
      ⟨p, secretKey, site, _, _, _, _, _, hresult⟩
    · exact hquiet (by omega)
    · rcases hresult with ⟨_, _, hstatus, _⟩ | ⟨_, _, hstatus, _⟩ <;> omega
  · intro priceId hm hv hk
    have ht := tryBlock_valid Stripe env event priceId hm hv
    simp only [hk] at ht
    simp [handler, ht, LogLine.isError]
  · intro priceId secretKey hm hv hk hs
    have ht := tryBlock_valid Stripe env event priceId hm hv
    simp only [hk, hs] at ht
    simp [handler, ht, LogLine.isError]

/-- Witness of C11: a rejected call leaves its error-level line, and a body
that is an array is answered 400 without one. -/
theorem handler_error_logging_witness :
    (handler rejectingStripe shopEnv (checkoutEvent none)).logs.filter LogLine.isError =
      [LogLine.error "Stripe error:"
        { name := "StripeInvalidRequestError", message := some "No such price: 'price_123'" }] ∧
    (handler resolvingStripe shopEnv (postEvent "[1, 2]")).logs.filter LogLine.isError = [] :=
  ⟨((handler_error_logging rejectingStripe shopEnv (checkoutEvent none)).1
      { secretKey := "sk_test_123",
        params := sessionParams (JSVal.str "price_123") "https://shop.example" }
      { name := "StripeInvalidRequestError", message := some "No such price: 'price_123'" }
      (List.Mem.head []) rfl).2,
    (handler_error_logging resolvingStripe shopEnv (postEvent "[1, 2]")).2.1
      (Nat.le_refl 400) (by decide)⟩

/-- C12: Stripe is called at most once in an invocation.  A call is made only
when the method is `POST`, the body is JSON text for an object whose `priceId`
is a string starting with `price_` (that `priceId` is the price of the call's
line item) and `STRIPE_SECRET_KEY` is set and non-empty (it is the key of the
call).  A 200 is answered only when such a call was made and resolved. -/
theorem handler_calls_stripe_at_most_once (Stripe : Stripe) (env : ProcessEnv)
    (event : Event) :
    (handler Stripe env event).calls.length ≤ 1 ∧
    (∀ call, call ∈ (handler Stripe env event).calls →
      event.httpMethod = "POST" ∧
      (∃ b fields priceId, event.body = some b ∧ JSON.parse b = some (JSVal.obj fields) ∧
        lookupLast "priceId" fields = some (JSVal.str priceId) ∧
        startsWith priceId "price_" = true ∧
        call.params.line_items = [{ price := JSVal.str priceId, quantity := 1 }]) ∧
      (∃ secretKey, env.STRIPE_SECRET_KEY = some secretKey ∧ secretKey ≠ "" ∧
        call.secretKey = secretKey)) ∧
    ((handler Stripe env event).response.statusCode = 200 →
      ∃ call session, (handler Stripe env event).calls = [call] ∧
        Stripe call.secretKey call.params = CreateResult.resolved session) := by
  rcases handler_paths Stripe env event with ⟨hnone, hstatus, _⟩ |
    ⟨p, secretKey, site, hm, hv, hk, _, hcalls, hresult⟩
  · refine ⟨by simp [hnone], ?_, ?_⟩
    · intro call hcall
      rw [hnone] at hcall
      exact absurd hcall (List.not_mem_nil call)
    · intro h200
      rcases hstatus with h | h | h <;> omega
  · refine ⟨by simp [hcalls], ?_, ?_⟩
    · intro call hcall
      rw [hcalls] at hcall
      have hc := List.mem_singleton.mp hcall
      subst hc
      obtain ⟨b, fields, hb, hparse, hlook, hstart⟩ := hv
      obtain ⟨hkey, hne⟩ := truthy?_eq_some _ _ hk
      exact ⟨hm, ⟨b, fields, p, hb, hparse, hlook, hstart, rfl⟩, ⟨secretKey, hkey, hne, rfl⟩⟩
    · intro h200
      rcases hresult with ⟨_, _, hstatus, _⟩ | ⟨session, hc, _, _⟩
      · omega
      · exact ⟨_, session, hcalls, hc⟩

/-- Witness of C12: the sample checkout request is answered 200, so one call
was made and it resolved. -/
theorem handler_calls_stripe_at_most_once_witness :
    ∃ call session,
      (handler resolvingStripe shopEnv (checkoutEvent none)).calls = [call] ∧
      resolvingStripe call.secretKey call.params = CreateResult.resolved session :=
  (handler_calls_stripe_at_most_once resolvingStripe shopEnv (checkoutEvent none)).2.2 rfl

/-- C13: a POST whose body is absent, `null` or the empty string is read as the
empty object: the text handed to `JSON.parse` is `{}`, the `priceId` logged is
`undefined`, and the answer is 400 with the body
`{"error":"Missing or invalid priceId (must start with price_)"}`, which is
not the `Invalid JSON body` answer; Stripe is not called. -/
theorem handler_empty_body_reads_empty_object (Stripe : Stripe) (env : ProcessEnv)
    (event : Event)
    (hmethod : event.httpMethod = "POST")
    (hbody : event.body = none ∨ event.body = some "") :
    orDefault event.body "\x7b\x7d" = "\x7b\x7d" ∧
    JSON.parse (orDefault event.body "\x7b\x7d") = some (JSVal.obj []) ∧
    (handler Stripe env event).logs = [LogLine.log "Received priceId:" JSVal.undefined] ∧
    (handler Stripe env event).response =
      { statusCode := 400, headers := [("Content-Type", "application/json")],
        body := "\x7b\"error\":\"Missing or invalid priceId (must start with price_)\"\x7d" } ∧
    (handler Stripe env event).response.body ≠ "\x7b\"error\":\"Invalid JSON body\"\x7d" ∧
    (handler Stripe env event).calls = [] := by
  have htext : orDefault event.body "\x7b\x7d" = "\x7b\x7d" := by
    rcases hbody with h | h <;> rw [h] <;> rfl
  have hparse : JSON.parse "\x7b\x7d" = some (JSVal.obj []) := rfl
  have hrun : handler Stripe env event =
      { response :=
          { statusCode := 400, headers := headers,
            body := JSON.stringify
              (JSON.Payload.error "Missing or invalid priceId (must start with price_)") }
        logs := [LogLine.log "Received priceId:" JSVal.undefined]
        calls := [] } := by
    simp [handler, tryBlock, hmethod, htext, hparse, destructurePriceId, lookupLast,
      invalidPriceId, JSVal.truthy]
  rw [hrun, htext]
  exact ⟨rfl, hparse, rfl, rfl, by decide, rfl⟩

/-- Witness of C13: a POST without body and a POST with the empty body. -/
theorem handler_empty_body_reads_empty_object_witness :
    (handler resolvingStripe shopEnv
      { httpMethod := "POST", body := none, headers := none }).response.statusCode = 400 ∧
    (handler resolvingStripe shopEnv (postEvent "")).response.body =
      "\x7b\"error\":\"Missing or invalid priceId (must start with price_)\"\x7d" :=
  ⟨congrArg Response.statusCode
      (handler_empty_body_reads_empty_object resolvingStripe shopEnv
        { httpMethod := "POST", body := none, headers := none } rfl (Or.inl rfl)).2.2.2.1,
    congrArg Response.body
      (handler_empty_body_reads_empty_object resolvingStripe shopEnv (postEvent "")
        rfl (Or.inr rfl)).2.2.2.1⟩

end CheckoutSession
